import Mathlib

/-!
# Dropbox `list_file_members` client: pagination loop

A shallow embedding of `src/dropbox/client.go`.

* The network (`c.httpClient.Do`) is a deterministic state machine
  `Transport σ`: given its state and a request it yields either a transport
  error or a response, and a next state.  Nothing is assumed about it.
  `httpClientDo` is the instance `NewClient` installs: the default
  `http.Client` in front of a `Server`, following redirects before the
  client code sees a response.
* A response body is either undecodable or a JSON object in which each of the
  four fields of `ListFileMembersResponseBody` is absent, `null` or present;
  `Decode` stores it into a destination value the way `encoding/json` does
  (an absent field leaves the destination's field untouched).
* A request body is kept as the JSON object that `json.Encoder` writes, field
  by field in declaration order, not as text.
* The `for` loop of `ListFileMembers` may run forever, so the model takes a
  bound `fuel` on the number of iterations and answers `none` when the bound
  is reached with a cursor still pending.
* Every request handed to the transport is recorded, in order, in `sent`.
* Go slices are lists; a nil slice and an empty slice are both `[]`.
-/

set_option linter.dupNamespace false

namespace Dropbox

/-! ## Data model -/

/-- Go `error` value (non-nil). -/
structure Error where
  msg : String
deriving DecidableEq, Repr

/-- The fields of `url.URL` the client sets. -/
structure URL where
  Scheme : String
  Host : String
  Path : String
deriving DecidableEq, Repr

/-- The variable `baseURL` (client.go:13). -/
def baseURL : URL := { Scheme := "https", Host := "api.dropboxapi.com", Path := "/2/" }

/-- Scalar JSON values occurring in the request bodies. -/
inductive JSONValue where
  | str (s : String)
  | bool (b : Bool)
  | num (n : Int)
deriving DecidableEq, Repr

/-- JSON object: its members in the order they are written. -/
abbrev JSONObject := List (String × JSONValue)

/-- Go `http.Header`: a map from key to the list of its values.  The three keys
the client uses are already in canonical form. -/
abbrev Header := List (String × List String)

/-- Go `h[key]`: all values stored under `key` (empty when the key is missing). -/
def Header.Values (h : Header) (key : String) : List String :=
  (h.lookup key).getD []

/-- Go `h.Get(key)`: the first value under `key`, or `""`. -/
def Header.Get (h : Header) (key : String) : String :=
  (h.Values key).head?.getD ""

/-- Go `h.Set(key, value)`: replaces whatever is stored under `key`. -/
def Header.Set (h : Header) (key value : String) : Header :=
  (key, [value]) :: h.filter (fun kv => kv.1 != key)

/-- Go `h.Add(key, value)`: appends to the values stored under `key`. -/
def Header.Add (h : Header) (key value : String) : Header :=
  (key, h.Values key ++ [value]) :: h.filter (fun kv => kv.1 != key)

/-- Go `http.Request`, as far as the client fills it. -/
structure Request where
  Method : String
  URL : String
  Header : Header
  Body : Option JSONObject
deriving DecidableEq, Repr

/-- The tagged variant `{ ".tag": ... }`. -/
structure Tag where
  Tag : String
deriving DecidableEq, Repr

/-- Time stamp (`time.Time`), kept as its RFC 3339 text. -/
abbrev Time := String

/-- Element of a `[]interface{}` permission list, kept as its JSON text. -/
abbrev Permission := String

structure UserInfo where
  AccountID : String
  Email : String
  DisplayName : String
  SameTeam : Bool
  TeamMemberID : String
deriving DecidableEq, Repr

/-- Go `type User` (client.go:75). -/
structure User where
  AccessType : Tag
  User : UserInfo
  Permissions : List Permission
  IsInherited : Bool
  TimeLastSeen : Time
  PlatformType : Tag
deriving DecidableEq, Repr

structure GroupInfo where
  GroupName : String
  GroupID : String
  GroupManagementType : Tag
  GroupType : Tag
  IsMember : Bool
  IsOwner : Bool
  SameTeam : Bool
  MemberCount : Int
deriving DecidableEq, Repr

/-- Go `type Group` (client.go:94). -/
structure Group where
  AccessType : Tag
  Group : GroupInfo
  Permissions : List Permission
  IsInherited : Bool
deriving DecidableEq, Repr

structure InviteeInfo where
  Tag : String
  Email : String
deriving DecidableEq, Repr

/-- Go `type Invitee` (client.go:116). -/
structure Invitee where
  AccessType : Tag
  Invitee : InviteeInfo
  Permissions : List Permission
  IsInherited : Bool
deriving DecidableEq, Repr

/-- Go `type ListFileMembersRequestBody` (client.go:69); `Limit` is an `int32`. -/
structure ListFileMembersRequestBody where
  File : String
  IncludeInherited : Bool
  Limit : Int
deriving DecidableEq, Repr

/-- Go `type ListMembersContinueRequestBody` (client.go:135). -/
structure ListMembersContinueRequestBody where
  Cursor : String
deriving DecidableEq, Repr

/-- Go `type ListFileMembersResponseBody` (client.go:128): one page.  `Cursor` is
a `*string`; `none` is the nil pointer.  The default is Go's zero value. -/
structure ListFileMembersResponseBody where
  Users : List User := []
  Groups : List Group := []
  Invitees : List Invitee := []
  Cursor : Option String := none
deriving DecidableEq, Repr

/-- Go `type FileMembers` (client.go:139).  The default is Go's zero value. -/
structure FileMembers where
  Users : List User := []
  Groups : List Group := []
  Invitees : List Invitee := []
deriving DecidableEq, Repr

/-! ## JSON encoding and decoding (`encoding/json`) -/

/-- What `json.Encoder.Encode` writes for a `ListFileMembersRequestBody`,
following the struct tags. -/
def ListFileMembersRequestBody.Encode (b : ListFileMembersRequestBody) : Except Error JSONObject :=
  .ok [("file", .str b.File), ("include_inherited", .bool b.IncludeInherited), ("limit", .num b.Limit)]

/-- What `json.Encoder.Encode` writes for a `ListMembersContinueRequestBody`. -/
def ListMembersContinueRequestBody.Encode (b : ListMembersContinueRequestBody) : Except Error JSONObject :=
  .ok [("cursor", .str b.Cursor)]

/-- One member of a received JSON object, seen from the struct field it is
decoded into. -/
inductive Field (α : Type) where
  | absent
  | null
  | value (a : α)
deriving DecidableEq, Repr

/-- Received JSON object, read through the tags of `ListFileMembersResponseBody`. -/
structure ResponseObject where
  users : Field (List User) := .absent
  groups : Field (List Group) := .absent
  invitees : Field (List Invitee) := .absent
  cursor : Field String := .absent
deriving DecidableEq, Repr

/-- Body of an HTTP response: text the decoder rejects with `err`, or an object. -/
inductive ResponseBody where
  | malformed (err : Error)
  | object (o : ResponseObject)
deriving DecidableEq, Repr

/-- Go `http.Response`, as far as the client can see it. -/
structure Response where
  StatusCode : Int
  Body : ResponseBody
deriving DecidableEq, Repr

/-- Decoding a member into a slice field: absent keeps the old slice, `null`
gives nil, an array replaces it. -/
def Field.storeSlice {α : Type} : Field (List α) → List α → List α
  | .absent, old => old
  | .null, _ => []
  | .value xs, _ => xs

/-- Decoding a member into a pointer field: absent keeps the old pointer,
`null` gives nil, a value gives a pointer to it. -/
def Field.storePointer {α : Type} : Field α → Option α → Option α
  | .absent, old => old
  | .null, _ => none
  | .value a, _ => some a

/-- Go `json.NewDecoder(body).Decode(v)`: the new contents of `*v` and the error. -/
def Decode (body : ResponseBody) (v : ListFileMembersResponseBody) :
    ListFileMembersResponseBody × Option Error :=
  match body with
  | .malformed err => (v, some err)
  | .object o =>
    ({ Users := o.users.storeSlice v.Users
       Groups := o.groups.storeSlice v.Groups
       Invitees := o.invitees.storeSlice v.Invitees
       Cursor := o.cursor.storePointer v.Cursor }, none)

/-! ## The client -/

/-- The parts of `net/url` and `net/http` the client calls, whose results it
only passes on. -/
structure NetLib where
  /-- Go `base.ResolveReference(&url.URL{Path: path}).String()` -/
  ResolveReference : URL → String → String
  /-- The error `http.NewRequest(method, url, _)` returns for a non-empty
  method, if any (invalid method, unparsable URL). -/
  newRequestError : String → String → Option Error

/-- Go `c.httpClient.Do`: the network, as a state machine. -/
abbrev Transport (σ : Type) := σ → Request → Except Error Response × σ

/-- Go `type Client` (client.go:19). -/
structure Client (σ : Type) where
  BaseURL : URL
  accessToken : String
  httpClient : Transport σ

/-- Go `NewClient` (client.go:25); the transport stands for `&http.Client{}`. -/
def NewClient {σ : Type} (accessToken : String) (httpClient : Transport σ) : Client σ :=
  { BaseURL := baseURL, accessToken := accessToken, httpClient := httpClient }

/-- Go `http.NewRequest`: an empty method means GET; the new request has an
empty header. -/
def NewRequest (lib : NetLib) (method url : String) (body : Option JSONObject) :
    Except Error Request :=
  let method := if method = "" then "GET" else method
  match lib.newRequestError method url with
  | some err => .error err
  | none => .ok { Method := method, URL := url, Header := [], Body := body }

/-- Go `Client.sendRequest` (client.go:33).  `body = none` is the nil interface;
`encode` is what `json.NewEncoder(buf).Encode` does on the body's type. -/
def Client.sendRequest {σ β : Type} (c : Client σ) (lib : NetLib) (method path : String)
    (body : Option β) (encode : β → Except Error JSONObject) : Except Error Request :=
  let u := lib.ResolveReference c.BaseURL path
  let buf : Except Error (Option JSONObject) :=
    match body with
    | none => .ok none
    | some b =>
      match encode b with
      | .error err => .error err
      | .ok js => .ok (some js)
  match buf with
  | .error err => .error err
  | .ok buf =>
    match NewRequest lib method u buf with
    | .error err => .error err
    | .ok req =>
      let req := if body.isSome then
        { req with Header := req.Header.Set "Content-Type" "application/json" } else req
      let req := { req with Header := req.Header.Set "Accept" "application/json" }
      let req := { req with Header := req.Header.Add "Authorization" ("Bearer " ++ c.accessToken) }
      .ok req

/-- What `Client.do` leaves behind: the returned pair, the contents of `*v`,
and the transport's next state. -/
structure DoResult (σ : Type) where
  resp : Option Response
  err : Option Error
  v : ListFileMembersResponseBody
  state : σ

/-- Go `Client.do` (client.go:59), called in transport state `s` with `*v = v`. -/
def Client.do {σ : Type} (c : Client σ) (s : σ) (req : Request)
    (v : ListFileMembersResponseBody) : DoResult σ :=
  match c.httpClient s req with
  | (.error err, s') => { resp := none, err := some err, v := v, state := s' }
  | (.ok resp, s') =>
    { resp := some resp, err := (Decode resp.Body v).2, v := (Decode resp.Body v).1, state := s' }

/-- What a call of `ListFileMembers` leaves behind: the returned pair
`(*FileMembers, error)`, the requests handed to the transport, in order, and
the transport's final state. -/
structure Outcome (σ : Type) where
  members : Option FileMembers
  err : Option Error
  sent : List Request
  state : σ

/-- The `for cursorPointer != nil` loop of `ListFileMembers` (client.go:171)
followed by the final `return &fileMembers, err`; `fuel` bounds the number of
iterations. -/
def Client.continueLoop {σ : Type} (c : Client σ) (lib : NetLib) :
    Nat → σ → List Request → FileMembers → Option String → Option Error → Option (Outcome σ)
  | _, s, sent, fileMembers, none, err =>
    some { members := some fileMembers, err := err, sent := sent, state := s }
  | 0, _, _, _, some _, _ => none
  | fuel + 1, s, sent, fileMembers, some cursor, _ =>
    match c.sendRequest lib "POST" "sharing/list_file_members/continue"
        (some ({ Cursor := cursor } : ListMembersContinueRequestBody))
        ListMembersContinueRequestBody.Encode with
    | .error err => some { members := none, err := some err, sent := sent, state := s }
    | .ok req =>
      let r := c.do s req {}
      if r.err ≠ none then
        some { members := none, err := r.err, sent := sent ++ [req], state := r.state }
      else
        c.continueLoop lib fuel r.state (sent ++ [req])
          { Users := fileMembers.Users ++ r.v.Users
            Groups := fileMembers.Groups ++ r.v.Groups
            Invitees := fileMembers.Invitees ++ r.v.Invitees }
          r.v.Cursor r.err

/-- Go `Client.ListFileMembers` (client.go:146), started in transport state `s`. -/
def Client.ListFileMembers {σ : Type} (c : Client σ) (lib : NetLib) (fuel : Nat) (s : σ)
    (fileID : String) (includeInherited : Bool) (limit : Int) : Option (Outcome σ) :=
  let requestBody : ListFileMembersRequestBody :=
    { File := fileID, IncludeInherited := includeInherited, Limit := limit }
  match c.sendRequest lib "POST" "sharing/list_file_members" (some requestBody)
      ListFileMembersRequestBody.Encode with
  | .error err => some { members := none, err := some err, sent := [], state := s }
  | .ok req =>
    let r := c.do s req {}
    if r.err ≠ none then
      some { members := none, err := r.err, sent := [req], state := r.state }
    else
      c.continueLoop lib fuel r.state [req]
        { Users := r.v.Users, Groups := r.v.Groups, Invitees := r.v.Invitees }
        r.v.Cursor r.err

/-! ## Vocabulary of the statements -/

/-- The request `sendRequest` hands back for a POST of the JSON object `js`
to `path` when neither encoding nor `http.NewRequest` fails. -/
def Client.newPost {σ : Type} (c : Client σ) (lib : NetLib) (path : String) (js : JSONObject) :
    Request :=
  { Method := "POST"
    URL := lib.ResolveReference c.BaseURL path
    Header := [("Authorization", ["Bearer " ++ c.accessToken]),
               ("Accept", ["application/json"]),
               ("Content-Type", ["application/json"])]
    Body := some js }

/-- The initial request of a query. -/
def Client.initialRequest {σ : Type} (c : Client σ) (lib : NetLib) (fileID : String)
    (includeInherited : Bool) (limit : Int) : Request :=
  c.newPost lib "sharing/list_file_members"
    [("file", .str fileID), ("include_inherited", .bool includeInherited), ("limit", .num limit)]

/-- The continuation request for `cursor`. -/
def Client.continueRequest {σ : Type} (c : Client σ) (lib : NetLib) (cursor : String) : Request :=
  c.newPost lib "sharing/list_file_members/continue" [("cursor", .str cursor)]

/-- The initial request followed by one continuation request per cursor. -/
def Client.requests {σ : Type} (c : Client σ) (lib : NetLib) (fileID : String)
    (includeInherited : Bool) (limit : Int) (cursors : List String) : List Request :=
  c.initialRequest lib fileID includeInherited limit :: cursors.map (c.continueRequest lib)

/-- Go `http.NewRequest` accepts a POST to the initial operation's URL. -/
def Client.InitialBuildable {σ : Type} (c : Client σ) (lib : NetLib) : Prop :=
  lib.newRequestError "POST" (lib.ResolveReference c.BaseURL "sharing/list_file_members") = none

/-- Go `http.NewRequest` accepts a POST to the continuation operation's URL. -/
def Client.ContinueBuildable {σ : Type} (c : Client σ) (lib : NetLib) : Prop :=
  lib.newRequestError "POST"
    (lib.ResolveReference c.BaseURL "sharing/list_file_members/continue") = none

/-- The cursors carried by a list of pages, in page order. -/
def cursorsOf (pages : List ListFileMembersResponseBody) : List String :=
  pages.filterMap (fun p => p.Cursor)

/-- What one call of `do` amounts to for its caller: the error, or the page
left in `*v`. -/
def DoResult.answer {σ : Type} (r : DoResult σ) : Except Error ListFileMembersResponseBody :=
  match r.err with
  | some err => .error err
  | none => .ok r.v

/-- Started in state `s`, the transport answers the requests `reqs`, each
executed by `do` into a zero-valued page, with `answers`, one by one, and is
left in state `s'`. -/
def Client.Answers {σ : Type} (c : Client σ) :
    σ → List Request → List (Except Error ListFileMembersResponseBody) → σ → Prop
  | s, [], [], s' => s' = s
  | s, req :: reqs, a :: answers, s' =>
    (c.do s req {}).answer = a ∧ c.Answers (c.do s req {}).state reqs answers s'
  | _, _, _, _ => False

/-- All entries of `pages`, page after page. -/
def FileMembers.ofPages (pages : List ListFileMembersResponseBody) : FileMembers :=
  { Users := (pages.map (fun p => p.Users)).flatten
    Groups := (pages.map (fun p => p.Groups)).flatten
    Invitees := (pages.map (fun p => p.Invitees)).flatten }

/-- The accumulator `fm` after the entries of `pages` were appended to it,
page after page. -/
def FileMembers.extend (fm : FileMembers) (pages : List ListFileMembersResponseBody) :
    FileMembers :=
  { Users := fm.Users ++ (FileMembers.ofPages pages).Users
    Groups := fm.Groups ++ (FileMembers.ofPages pages).Groups
    Invitees := fm.Invitees ++ (FileMembers.ofPages pages).Invitees }

/-- The cursors found in the bodies of `sent`, in order. -/
def sentCursors (sent : List Request) : List String :=
  sent.filterMap (fun r =>
    match r.Body with
    | some js =>
      match js.lookup "cursor" with
      | some (.str cu) => some cu
      | _ => none
    | none => none)

/-- Two results of the transport that differ at most in the response's HTTP
status code: the same error, or responses with the same body. -/
def SameButStatus : Except Error Response → Except Error Response → Prop
  | .error e1, .error e2 => e1 = e2
  | .ok r1, .ok r2 => r1.Body = r2.Body
  | _, _ => False

/-- Two runs of `ListFileMembers` on two transports end alike: both run out of
fuel, or both return the same pair after the same requests, leaving the
transports in states related by `R`. -/
def Outcome.Agree {σ₁ σ₂ : Type} (R : σ₁ → σ₂ → Prop) :
    Option (Outcome σ₁) → Option (Outcome σ₂) → Prop
  | none, none => True
  | some o1, some o2 =>
    o1.members = o2.members ∧ o1.err = o2.err ∧ o1.sent = o2.sent ∧ R o1.state o2.state
  | _, _ => False

/-! ## Concrete libraries, transports and pages -/

/-- Library behaviour on the client's two operations: a relative path without
dot segments is appended to the base path, and `http.NewRequest` accepts every
request. -/
def plainLib : NetLib :=
  { ResolveReference := fun base path => base.Scheme ++ "://" ++ base.Host ++ base.Path ++ path
    newRequestError := fun _ _ => none }

/-- Library whose `http.NewRequest` rejects every request. -/
def rejectingLib : NetLib :=
  { ResolveReference := plainLib.ResolveReference
    newRequestError := fun _ _ => some { msg := "net/http: invalid request" } }

/-- Transport that plays back a fixed list of results, one per request,
whatever it is asked, and fails once the list is used up. -/
def scripted : Transport (List (Except Error Response))
  | [], _ => (.error { msg := "EOF" }, [])
  | a :: rest, _ => (a, rest)

/-- Transport that answers every request with an empty page carrying the
cursor "abc". -/
def cycling : Transport Unit :=
  fun s _ => (.ok { StatusCode := 200, Body := .object { cursor := .value "abc" } }, s)

/-- Transport that answers every request with status `status` and the same
empty, cursor-less page. -/
def constantStatus (status : Int) : Transport Unit :=
  fun s _ => (.ok { StatusCode := status, Body := .object { users := .value [] } }, s)

def alice : User :=
  { AccessType := { Tag := "owner" }
    User := { AccountID := "dbid:1", Email := "alice@example.com", DisplayName := "Alice",
              SameTeam := true, TeamMemberID := "dbmid:1" }
    Permissions := [], IsInherited := false, TimeLastSeen := "2016-01-20T00:00:00Z"
    PlatformType := { Tag := "unknown" } }

def bob : User :=
  { AccessType := { Tag := "viewer" }
    User := { AccountID := "dbid:2", Email := "bob@example.com", DisplayName := "Bob",
              SameTeam := false, TeamMemberID := "" }
    Permissions := [], IsInherited := true, TimeLastSeen := "2016-01-21T00:00:00Z"
    PlatformType := { Tag := "unknown" } }

def staff : Group :=
  { AccessType := { Tag := "editor" }
    Group := { GroupName := "Staff", GroupID := "g:1", GroupManagementType := { Tag := "user_managed" },
               GroupType := { Tag := "user_managed" }, IsMember := false, IsOwner := false,
               SameTeam := true, MemberCount := 10 }
    Permissions := [], IsInherited := false }

def dave : Invitee :=
  { AccessType := { Tag := "viewer" }
    Invitee := { Tag := "email", Email := "dave@example.com" }
    Permissions := [], IsInherited := false }

/-- Page P1: one user, cursor "abc". -/
def page1 : ListFileMembersResponseBody := { Users := [alice], Cursor := some "abc" }

/-- Page P2: one user and one group, cursor "def". -/
def page2 : ListFileMembersResponseBody := { Users := [bob], Groups := [staff], Cursor := some "def" }

/-- Page P3: one invitee, no cursor. -/
def page3 : ListFileMembersResponseBody := { Invitees := [dave] }

/-- Page carrying a cursor that is the empty string. -/
def pageEmptyCursor : ListFileMembersResponseBody := { Users := [alice], Cursor := some "" }

/-- The JSON object received for a page (every member present, the cursor
member only when the page carries a cursor). -/
def wire (p : ListFileMembersResponseBody) : ResponseObject :=
  { users := .value p.Users, groups := .value p.Groups, invitees := .value p.Invitees
    cursor := match p.Cursor with
      | some cu => .value cu
      | none => .absent }

/-- A 200 response carrying `p`. -/
def okResponse (p : ListFileMembersResponseBody) : Except Error Response :=
  .ok { StatusCode := 200, Body := .object (wire p) }

/-- Client with the token "t0k3n" on the play-back transport. -/
def demoClient : Client (List (Except Error Response)) := NewClient "t0k3n" scripted

/-! ## The default HTTP client between the code and the server -/

/-- A reply of the server: status code, `Location` header ("" when there is
none) and body. -/
structure ServerReply where
  StatusCode : Int
  Location : String
  Body : ResponseBody
deriving DecidableEq, Repr

/-- A server: given its state and one request on the wire, a reply or a
network failure, and its next state. -/
abbrev Server (σ : Type) := σ → Request → Except Error ServerReply × σ

/-- What `net/http` computes for a follow-up request and the client code never
sees: the URL a `Location` resolves to against the current request's URL, and
the headers copied from the original request to the follow-up request. -/
structure RedirectLib where
  resolve : String → String → Except Error String
  header : Request → String → Header

/-- Go `redirectBehavior` (net/http, client.go) for a request built by
`http.NewRequest`: on 301, 302, 303 the follow-up is a body-less GET (the
method is kept when it is GET or HEAD), on 307, 308 the method and the original
body are kept; `none` when the response is not followed. -/
def redirectBehavior (reqMethod : String) (status : Int) : Option (String × Bool) :=
  if status = 301 ∨ status = 302 ∨ status = 303 then
    some (if reqMethod ≠ "GET" ∧ reqMethod ≠ "HEAD" then "GET" else reqMethod, false)
  else if status = 307 ∨ status = 308 then
    some (reqMethod, true)
  else
    none

/-- The loop of `(*http.Client).do` (net/http, client.go) with the default
redirect policy; `ireq` is the original request and `left` the number of
requests the policy still allows. -/
def followRedirects {σ : Type} (rl : RedirectLib) (server : Server σ) (ireq : Request) :
    Nat → σ → Request → Except Error Response × σ
  | 0, s, _ => (.error { msg := "stopped after 10 redirects" }, s)
  | left + 1, s, req =>
    match server s req with
    | (.error err, s') => (.error err, s')
    | (.ok reply, s') =>
      match redirectBehavior req.Method reply.StatusCode with
      | none => (.ok { StatusCode := reply.StatusCode, Body := reply.Body }, s')
      | some (redirectMethod, includeBody) =>
        if reply.Location = "" then
          (.ok { StatusCode := reply.StatusCode, Body := reply.Body }, s')
        else
          match rl.resolve req.URL reply.Location with
          | .error err => (.error err, s')
          | .ok u =>
            followRedirects rl server ireq left s'
              { Method := redirectMethod, URL := u, Header := rl.header ireq u
                Body := if includeBody then ireq.Body else none }

/-- Go `(&http.Client{}).Do` in front of `server`: what `NewClient` installs
as `httpClient` (client.go:29).  At most 10 requests go out for one call. -/
def httpClientDo {σ : Type} (rl : RedirectLib) (server : Server σ) : Transport σ :=
  fun s req => followRedirects rl server req 10 s req

/-- Two results of a server that differ at most in the status code: the same
failure, or replies with the same `Location` header and the same body. -/
def ServerSameButStatus : Except Error ServerReply → Except Error ServerReply → Prop
  | .error e1, .error e2 => e1 = e2
  | .ok r1, .ok r2 => r1.Location = r2.Location ∧ r1.Body = r2.Body
  | _, _ => False

/-- Redirect library that takes a `Location` as the new URL and copies the
original headers. -/
def plainRedirects : RedirectLib :=
  { resolve := fun _ loc => .ok loc
    header := fun ireq _ => ireq.Header }

/-- Server that answers every request with status `status`, the header
`Location: https://api.dropboxapi.com/2/moved` and page P3 as body. -/
def constantServer (status : Int) : Server Unit :=
  fun s _ => (.ok { StatusCode := status, Location := "https://api.dropboxapi.com/2/moved"
                    Body := .object (wire page3) }, s)

/-! ## Building requests -/

theorem sendRequest_post {σ β : Type} (c : Client σ) (lib : NetLib) (path : String) (b : β)
    (encode : β → Except Error JSONObject) (js : JSONObject) (henc : encode b = .ok js)
    (hnew : lib.newRequestError "POST" (lib.ResolveReference c.BaseURL path) = none) :
    c.sendRequest lib "POST" path (some b) encode = .ok (c.newPost lib path js) := by
  simp [Client.sendRequest, NewRequest, henc, hnew, Client.newPost, Header.Set, Header.Add,
    Header.Values, List.lookup]

theorem sendRequest_post_error {σ β : Type} (c : Client σ) (lib : NetLib) (path : String) (b : β)
    (encode : β → Except Error JSONObject) (js : JSONObject) (henc : encode b = .ok js)
    (e : Error)
    (hnew : lib.newRequestError "POST" (lib.ResolveReference c.BaseURL path) = some e) :
    c.sendRequest lib "POST" path (some b) encode = .error e := by
  simp [Client.sendRequest, NewRequest, henc, hnew]

theorem sendRequest_initial {σ : Type} (c : Client σ) (lib : NetLib) (fileID : String)
    (inc : Bool) (limit : Int) (hb : c.InitialBuildable lib) :
    c.sendRequest lib "POST" "sharing/list_file_members"
      (some ({ File := fileID, IncludeInherited := inc, Limit := limit } :
        ListFileMembersRequestBody)) ListFileMembersRequestBody.Encode
      = .ok (c.initialRequest lib fileID inc limit) :=
  sendRequest_post c lib _ _ _ _ rfl hb

theorem sendRequest_continue {σ : Type} (c : Client σ) (lib : NetLib) (cursor : String)
    (hb : c.ContinueBuildable lib) :
    c.sendRequest lib "POST" "sharing/list_file_members/continue"
      (some ({ Cursor := cursor } : ListMembersContinueRequestBody))
      ListMembersContinueRequestBody.Encode
      = .ok (c.continueRequest lib cursor) :=
  sendRequest_post c lib _ _ _ _ rfl hb

/-! ## Running the loop against a given sequence of answers -/

theorem answer_ok {σ : Type} (r : DoResult σ) (p : ListFileMembersResponseBody)
    (h : r.answer = .ok p) : r.err = none ∧ r.v = p := by
  unfold DoResult.answer at h
  cases hr : r.err with
  | none => rw [hr] at h; simp at h; exact ⟨rfl, h⟩
  | some e => rw [hr] at h; simp at h

theorem answer_error {σ : Type} (r : DoResult σ) (e : Error)
    (h : r.answer = .error e) : r.err = some e := by
  unfold DoResult.answer at h
  cases hr : r.err with
  | none => rw [hr] at h; simp at h
  | some e' => rw [hr] at h; simp at h; rw [h]

theorem answers_snoc {σ : Type} (c : Client σ) (r : Request)
    (a : Except Error ListFileMembersResponseBody) (s2 : σ) :
    ∀ (reqs : List Request) (answers : List (Except Error ListFileMembersResponseBody))
      (s s1 : σ), c.Answers s reqs answers s1 →
      (c.do s1 r {}).answer = a → (c.do s1 r {}).state = s2 →
      c.Answers s (reqs ++ [r]) (answers ++ [a]) s2 := by
  intro reqs
  induction reqs with
  | nil =>
    intro answers s s1 h ha hs
    cases answers with
    | nil =>
      simp only [Client.Answers] at h
      subst h
      exact ⟨ha, hs.symm⟩
    | cons b bs => simp [Client.Answers] at h
  | cons q reqs ih =>
    intro answers s s1 h ha hs
    cases answers with
    | nil => simp [Client.Answers] at h
    | cons b bs =>
      simp only [Client.Answers] at h
      exact ⟨h.1, ih bs _ s1 h.2 ha hs⟩

/-- A transport error, or a body the decoder rejects, makes `do` fail with
that error. -/
theorem do_raw_failure {σ : Type} (c : Client σ) (s s2 : σ) (req : Request)
    (v : ListFileMembersResponseBody) (e : Error)
    (h : c.httpClient s req = (.error e, s2) ∨
      ∃ status, c.httpClient s req = (.ok { StatusCode := status, Body := .malformed e }, s2)) :
    (c.do s req v).answer = .error e ∧ (c.do s req v).state = s2 := by
  rcases h with h | ⟨status, h⟩
  · simp [Client.do, h, DoResult.answer]
  · simp [Client.do, h, DoResult.answer, Decode]

theorem extend_cons (fm : FileMembers) (p : ListFileMembersResponseBody)
    (ps : List ListFileMembersResponseBody) :
    FileMembers.extend
      { Users := fm.Users ++ p.Users, Groups := fm.Groups ++ p.Groups,
        Invitees := fm.Invitees ++ p.Invitees } ps = fm.extend (p :: ps) := by
  simp [FileMembers.extend, FileMembers.ofPages, List.append_assoc]

theorem extend_single (fm : FileMembers) (p : ListFileMembersResponseBody) :
    ({ Users := fm.Users ++ p.Users, Groups := fm.Groups ++ p.Groups,
       Invitees := fm.Invitees ++ p.Invitees } : FileMembers) = fm.extend [p] := by
  simp [FileMembers.extend, FileMembers.ofPages]

/-- The loop, entered with cursor `cu`, against a transport that answers the
continuation requests for `cu` and the cursors of `front` with the pages
`front` (each carrying a cursor) and then with `x`. -/
theorem continueLoop_run {σ : Type} (c : Client σ) (lib : NetLib)
    (hb : c.ContinueBuildable lib) (x : Except Error ListFileMembersResponseBody) :
    ∀ (front : List ListFileMembersResponseBody) (cu : String) (fuel : Nat) (s : σ)
      (sent : List Request) (fm : FileMembers) (err0 : Option Error) (s' : σ),
      (∀ p ∈ front, p.Cursor ≠ none) →
      c.Answers s ((cu :: cursorsOf front).map (c.continueRequest lib))
        (front.map .ok ++ [x]) s' →
      c.continueLoop lib (fuel + front.length + 1) s sent fm (some cu) err0 =
        match x with
        | .error e =>
          some { members := none, err := some e
                 sent := sent ++ (cu :: cursorsOf front).map (c.continueRequest lib)
                 state := s' }
        | .ok p =>
          c.continueLoop lib fuel s'
            (sent ++ (cu :: cursorsOf front).map (c.continueRequest lib))
            (fm.extend (front ++ [p])) p.Cursor none := by
  intro front
  induction front with
  | nil =>
    intro cu fuel s sent fm err0 s' _ hans
    simp only [cursorsOf, List.filterMap_nil, List.map_cons, List.map_nil, List.nil_append,
      Client.Answers] at hans
    obtain ⟨hx, hs⟩ := hans
    simp only [List.length_nil, Nat.add_zero, Client.continueLoop, sendRequest_continue c lib cu hb,
      cursorsOf, List.filterMap_nil, List.map_cons, List.map_nil, List.nil_append]
    cases x with
    | error e =>
      have he := answer_error _ e hx
      simp [he, hs]
    | ok p =>
      obtain ⟨he, hv⟩ := answer_ok _ p hx
      simp only [he, ne_eq, not_true_eq_false, if_false, hv, hs]
      rw [extend_single]
  | cons p front ih =>
    intro cu fuel s sent fm err0 s' hall hans
    obtain ⟨cu1, hcu1⟩ := Option.ne_none_iff_exists'.mp (hall p (List.mem_cons_self _ _))
    have hcs : cursorsOf (p :: front) = cu1 :: cursorsOf front := by
      simp [cursorsOf, List.filterMap_cons, hcu1]
    rw [hcs] at hans ⊢
    simp only [List.map_cons, List.cons_append, Client.Answers] at hans
    obtain ⟨hx, hrest⟩ := hans
    obtain ⟨he, hv⟩ := answer_ok _ p hx
    have hfuel : fuel + (p :: front).length + 1 = (fuel + front.length + 1) + 1 := by
      simp only [List.length_cons]; omega
    rw [hfuel]
    simp only [Client.continueLoop, sendRequest_continue c lib cu hb]
    simp only [he, ne_eq, not_true_eq_false, if_false, hv, hcu1]
    rw [ih cu1 fuel _ _ _ none s' (fun q hq => hall q (List.mem_cons_of_mem _ hq)) hrest]
    cases x with
    | error e => simp [List.append_assoc]
    | ok q => simp only [extend_cons]; simp [List.append_assoc]

/-- Running `ListFileMembers` against a transport that answers the initial request and
the continuation requests for the cursors of `front` with the pages `front`
(each carrying a cursor) and then with `x`. -/
theorem listFileMembers_run {σ : Type} (c : Client σ) (lib : NetLib)
    (hi : c.InitialBuildable lib) (hb : c.ContinueBuildable lib)
    (x : Except Error ListFileMembersResponseBody)
    (front : List ListFileMembersResponseBody) (fuel : Nat) (s s' : σ)
    (fileID : String) (inc : Bool) (limit : Int)
    (hall : ∀ p ∈ front, p.Cursor ≠ none) :
    c.Answers s (c.requests lib fileID inc limit (cursorsOf front))
      (front.map .ok ++ [x]) s' →
    c.ListFileMembers lib (fuel + front.length) s fileID inc limit =
      match x with
      | .error e =>
        some { members := none, err := some e
               sent := c.requests lib fileID inc limit (cursorsOf front), state := s' }
      | .ok p =>
        c.continueLoop lib fuel s' (c.requests lib fileID inc limit (cursorsOf front))
          (FileMembers.ofPages (front ++ [p])) p.Cursor none := by
  intro hans
  cases front with
  | nil =>
    simp only [Client.requests, cursorsOf, List.filterMap_nil, List.map_nil, List.nil_append,
      Client.Answers] at hans
    obtain ⟨hx, hs⟩ := hans
    simp only [Client.ListFileMembers, sendRequest_initial c lib fileID inc limit hi,
      List.length_nil, Nat.add_zero, Client.requests, cursorsOf, List.filterMap_nil, List.map_nil,
      List.nil_append]
    cases x with
    | error e =>
      have he := answer_error _ e hx
      simp [he, hs]
    | ok p =>
      obtain ⟨he, hv⟩ := answer_ok _ p hx
      simp only [he, ne_eq, not_true_eq_false, if_false, hv, hs]
      congr 1
      simp [FileMembers.ofPages]
  | cons p front =>
    obtain ⟨cu1, hcu1⟩ := Option.ne_none_iff_exists'.mp (hall p (List.mem_cons_self _ _))
    have hcs : cursorsOf (p :: front) = cu1 :: cursorsOf front := by
      simp [cursorsOf, List.filterMap_cons, hcu1]
    rw [hcs] at hans ⊢
    simp only [Client.requests, List.map_cons, List.cons_append, Client.Answers] at hans
    obtain ⟨hx, hrest⟩ := hans
    obtain ⟨he, hv⟩ := answer_ok _ p hx
    have hfuel : fuel + (p :: front).length = fuel + front.length + 1 := by
      simp only [List.length_cons]; omega
    rw [hfuel]
    simp only [Client.ListFileMembers, sendRequest_initial c lib fileID inc limit hi]
    simp only [he, ne_eq, not_true_eq_false, if_false, hv, hcu1]
    have hfm : ({ Users := p.Users, Groups := p.Groups, Invitees := p.Invitees } : FileMembers)
        = FileMembers.ofPages [p] := by simp [FileMembers.ofPages]
    rw [hfm, continueLoop_run c lib hb x front cu1 fuel _ _ _ none s'
      (fun q hq => hall q (List.mem_cons_of_mem _ hq)) hrest]
    have hext : ∀ q, (FileMembers.ofPages [p]).extend (front ++ [q])
        = FileMembers.ofPages (p :: front ++ [q]) := by
      intro q; simp [FileMembers.extend, FileMembers.ofPages]
    cases x with
    | error e => simp [Client.requests]
    | ok q => simp only [hext]; simp [Client.requests]

/-! ## General facts about the loop -/

theorem continueLoop_none {σ : Type} (c : Client σ) (lib : NetLib) (fuel : Nat) (s : σ)
    (sent : List Request) (fm : FileMembers) (err0 : Option Error) :
    c.continueLoop lib fuel s sent fm none err0
      = some { members := some fm, err := err0, sent := sent, state := s } := by
  cases fuel <;> rfl

theorem continueLoop_succ_error {σ : Type} (c : Client σ) (lib : NetLib) (fuel : Nat) (s : σ)
    (sent : List Request) (fm : FileMembers) (cu : String) (err0 : Option Error) (e : Error)
    (hreq : c.sendRequest lib "POST" "sharing/list_file_members/continue"
      (some ({ Cursor := cu } : ListMembersContinueRequestBody))
      ListMembersContinueRequestBody.Encode = .error e) :
    c.continueLoop lib (fuel + 1) s sent fm (some cu) err0
      = some { members := none, err := some e, sent := sent, state := s } := by
  rw [Client.continueLoop, hreq]

theorem continueLoop_succ_ok {σ : Type} (c : Client σ) (lib : NetLib) (fuel : Nat) (s : σ)
    (sent : List Request) (fm : FileMembers) (cu : String) (err0 : Option Error) (req : Request)
    (hreq : c.sendRequest lib "POST" "sharing/list_file_members/continue"
      (some ({ Cursor := cu } : ListMembersContinueRequestBody))
      ListMembersContinueRequestBody.Encode = .ok req) :
    c.continueLoop lib (fuel + 1) s sent fm (some cu) err0
      = if (c.do s req {}).err ≠ none then
          some { members := none, err := (c.do s req {}).err, sent := sent ++ [req]
                 state := (c.do s req {}).state }
        else
          c.continueLoop lib fuel (c.do s req {}).state (sent ++ [req])
            { Users := fm.Users ++ (c.do s req {}).v.Users
              Groups := fm.Groups ++ (c.do s req {}).v.Groups
              Invitees := fm.Invitees ++ (c.do s req {}).v.Invitees }
            (c.do s req {}).v.Cursor (c.do s req {}).err := by
  rw [Client.continueLoop, hreq]

theorem listFileMembers_build_error {σ : Type} (c : Client σ) (lib : NetLib) (fuel : Nat) (s : σ)
    (fileID : String) (inc : Bool) (limit : Int) (e : Error)
    (hreq : c.sendRequest lib "POST" "sharing/list_file_members"
      (some ({ File := fileID, IncludeInherited := inc, Limit := limit } :
        ListFileMembersRequestBody)) ListFileMembersRequestBody.Encode = .error e) :
    c.ListFileMembers lib fuel s fileID inc limit
      = some { members := none, err := some e, sent := [], state := s } := by
  simp only [Client.ListFileMembers, hreq]

theorem listFileMembers_build_ok {σ : Type} (c : Client σ) (lib : NetLib) (fuel : Nat) (s : σ)
    (fileID : String) (inc : Bool) (limit : Int) (req : Request)
    (hreq : c.sendRequest lib "POST" "sharing/list_file_members"
      (some ({ File := fileID, IncludeInherited := inc, Limit := limit } :
        ListFileMembersRequestBody)) ListFileMembersRequestBody.Encode = .ok req) :
    c.ListFileMembers lib fuel s fileID inc limit
      = if (c.do s req {}).err ≠ none then
          some { members := none, err := (c.do s req {}).err, sent := [req]
                 state := (c.do s req {}).state }
        else
          c.continueLoop lib fuel (c.do s req {}).state [req]
            { Users := (c.do s req {}).v.Users
              Groups := (c.do s req {}).v.Groups
              Invitees := (c.do s req {}).v.Invitees }
            (c.do s req {}).v.Cursor (c.do s req {}).err := by
  simp only [Client.ListFileMembers, hreq]

/-- More fuel does not change a result already reached. -/
theorem continueLoop_fuel_succ {σ : Type} (c : Client σ) (lib : NetLib) :
    ∀ (fuel : Nat) (s : σ) (sent : List Request) (fm : FileMembers) (cur : Option String)
      (err0 : Option Error) (out : Outcome σ),
      c.continueLoop lib fuel s sent fm cur err0 = some out →
      c.continueLoop lib (fuel + 1) s sent fm cur err0 = some out := by
  intro fuel
  induction fuel with
  | zero =>
    intro s sent fm cur err0 out h
    cases cur with
    | none => simpa [continueLoop_none] using h
    | some cu => simp [Client.continueLoop] at h
  | succ n ih =>
    intro s sent fm cur err0 out h
    cases cur with
    | none => simpa [continueLoop_none] using h
    | some cu =>
      cases hreq : c.sendRequest lib "POST" "sharing/list_file_members/continue"
          (some ({ Cursor := cu } : ListMembersContinueRequestBody))
          ListMembersContinueRequestBody.Encode with
      | error e =>
        rw [continueLoop_succ_error c lib _ _ _ _ _ _ e hreq] at h ⊢
        exact h
      | ok req =>
        rw [continueLoop_succ_ok c lib _ _ _ _ _ _ req hreq] at h ⊢
        split at h
        · rename_i herr
          rw [if_pos herr]
          exact h
        · rename_i herr
          rw [if_neg herr]
          exact ih _ _ _ _ _ _ h

theorem continueLoop_fuel_add {σ : Type} (c : Client σ) (lib : NetLib) (k : Nat) :
    ∀ (fuel : Nat) (s : σ) (sent : List Request) (fm : FileMembers) (cur : Option String)
      (err0 : Option Error) (out : Outcome σ),
      c.continueLoop lib fuel s sent fm cur err0 = some out →
      c.continueLoop lib (fuel + k) s sent fm cur err0 = some out := by
  induction k with
  | zero => intro fuel s sent fm cur err0 out h; exact h
  | succ k ih =>
    intro fuel s sent fm cur err0 out h
    exact continueLoop_fuel_succ c lib (fuel + k) s sent fm cur err0 out (ih fuel s sent fm cur err0 out h)

theorem listFileMembers_fuel_add {σ : Type} (c : Client σ) (lib : NetLib) (k fuel : Nat) (s : σ)
    (fileID : String) (inc : Bool) (limit : Int) (out : Outcome σ)
    (h : c.ListFileMembers lib fuel s fileID inc limit = some out) :
    c.ListFileMembers lib (fuel + k) s fileID inc limit = some out := by
  cases hreq : c.sendRequest lib "POST" "sharing/list_file_members"
      (some ({ File := fileID, IncludeInherited := inc, Limit := limit } :
        ListFileMembersRequestBody)) ListFileMembersRequestBody.Encode with
  | error e =>
    rw [listFileMembers_build_error c lib _ _ _ _ _ e hreq] at h ⊢
    exact h
  | ok req =>
    rw [listFileMembers_build_ok c lib _ _ _ _ _ req hreq] at h ⊢
    split at h
    · rename_i herr
      rw [if_pos herr]
      exact h
    · rename_i herr
      rw [if_neg herr]
      exact continueLoop_fuel_add c lib k _ _ _ _ _ _ _ h

/-- The loop only ever appends to the record of requests. -/
theorem continueLoop_sent_prefix {σ : Type} (c : Client σ) (lib : NetLib) :
    ∀ (fuel : Nat) (s : σ) (sent : List Request) (fm : FileMembers) (cur : Option String)
      (err0 : Option Error) (out : Outcome σ),
      c.continueLoop lib fuel s sent fm cur err0 = some out → sent <+: out.sent := by
  intro fuel
  induction fuel with
  | zero =>
    intro s sent fm cur err0 out h
    cases cur with
    | none =>
      rw [continueLoop_none] at h
      cases h
      exact List.prefix_refl _
    | some cu => simp [Client.continueLoop] at h
  | succ n ih =>
    intro s sent fm cur err0 out h
    cases cur with
    | none =>
      rw [continueLoop_none] at h
      cases h
      exact List.prefix_refl _
    | some cu =>
      cases hreq : c.sendRequest lib "POST" "sharing/list_file_members/continue"
          (some ({ Cursor := cu } : ListMembersContinueRequestBody))
          ListMembersContinueRequestBody.Encode with
      | error e =>
        rw [continueLoop_succ_error c lib _ _ _ _ _ _ e hreq] at h
        cases h
        exact List.prefix_refl _
      | ok req =>
        rw [continueLoop_succ_ok c lib _ _ _ _ _ _ req hreq] at h
        split at h
        · cases h
          exact List.prefix_append _ _
        · exact (List.prefix_append sent [req]).trans (ih _ _ _ _ _ _ h)

/-- With a cursor pending, whatever the loop returns, the continuation request
for that cursor was issued next. -/
theorem continueLoop_sent_next {σ : Type} (c : Client σ) (lib : NetLib)
    (hb : c.ContinueBuildable lib) (fuel : Nat) (s : σ) (sent : List Request) (fm : FileMembers)
    (cu : String) (err0 : Option Error) (out : Outcome σ)
    (h : c.continueLoop lib fuel s sent fm (some cu) err0 = some out) :
    (sent ++ [c.continueRequest lib cu]) <+: out.sent := by
  cases fuel with
  | zero => simp [Client.continueLoop] at h
  | succ n =>
    rw [continueLoop_succ_ok c lib _ _ _ _ _ _ _ (sendRequest_continue c lib cu hb)] at h
    split at h
    · cases h
      exact List.prefix_refl _
    · exact continueLoop_sent_prefix c lib _ _ _ _ _ _ _ h

/-- A property of every continuation request that can be built, and of every
request already recorded, holds of every request recorded at the end. -/
theorem continueLoop_sent_all {σ : Type} (c : Client σ) (lib : NetLib) (P : Request → Prop)
    (hP : ∀ cu req, c.sendRequest lib "POST" "sharing/list_file_members/continue"
      (some ({ Cursor := cu } : ListMembersContinueRequestBody))
      ListMembersContinueRequestBody.Encode = .ok req → P req) :
    ∀ (fuel : Nat) (s : σ) (sent : List Request) (fm : FileMembers) (cur : Option String)
      (err0 : Option Error) (out : Outcome σ),
      (∀ r ∈ sent, P r) →
      c.continueLoop lib fuel s sent fm cur err0 = some out → ∀ r ∈ out.sent, P r := by
  intro fuel
  induction fuel with
  | zero =>
    intro s sent fm cur err0 out hs h
    cases cur with
    | none =>
      rw [continueLoop_none] at h
      cases h
      exact hs
    | some cu => simp [Client.continueLoop] at h
  | succ n ih =>
    intro s sent fm cur err0 out hs h
    have hs' : ∀ req, P req → ∀ r ∈ sent ++ [req], P r := by
      intro req hreq r hr
      rcases List.mem_append.mp hr with hr | hr
      · exact hs r hr
      · rw [List.mem_singleton.mp hr]; exact hreq
    cases cur with
    | none =>
      rw [continueLoop_none] at h
      cases h
      exact hs
    | some cu =>
      cases hreq : c.sendRequest lib "POST" "sharing/list_file_members/continue"
          (some ({ Cursor := cu } : ListMembersContinueRequestBody))
          ListMembersContinueRequestBody.Encode with
      | error e =>
        rw [continueLoop_succ_error c lib _ _ _ _ _ _ e hreq] at h
        cases h
        exact hs
      | ok req =>
        rw [continueLoop_succ_ok c lib _ _ _ _ _ _ req hreq] at h
        split at h
        · cases h
          exact hs' req (hP cu req hreq)
        · exact ih _ _ _ _ _ _ (hs' req (hP cu req hreq)) h

/-- The loop returns a result and no error, or an error and no result. -/
theorem continueLoop_either {σ : Type} (c : Client σ) (lib : NetLib) :
    ∀ (fuel : Nat) (s : σ) (sent : List Request) (fm : FileMembers) (cur : Option String)
      (out : Outcome σ),
      c.continueLoop lib fuel s sent fm cur none = some out →
      (out.members ≠ none ∧ out.err = none) ∨ (out.members = none ∧ out.err ≠ none) := by
  intro fuel
  induction fuel with
  | zero =>
    intro s sent fm cur out h
    cases cur with
    | none =>
      rw [continueLoop_none] at h
      cases h
      exact Or.inl ⟨by simp, rfl⟩
    | some cu => simp [Client.continueLoop] at h
  | succ n ih =>
    intro s sent fm cur out h
    cases cur with
    | none =>
      rw [continueLoop_none] at h
      cases h
      exact Or.inl ⟨by simp, rfl⟩
    | some cu =>
      cases hreq : c.sendRequest lib "POST" "sharing/list_file_members/continue"
          (some ({ Cursor := cu } : ListMembersContinueRequestBody))
          ListMembersContinueRequestBody.Encode with
      | error e =>
        rw [continueLoop_succ_error c lib _ _ _ _ _ _ e hreq] at h
        cases h
        exact Or.inr ⟨rfl, by simp⟩
      | ok req =>
        rw [continueLoop_succ_ok c lib _ _ _ _ _ _ req hreq] at h
        split at h
        · rename_i herr
          cases h
          exact Or.inr ⟨rfl, herr⟩
        · rename_i herr
          rw [not_not.mp herr] at h
          exact ih _ _ _ _ _ h

theorem listFileMembers_either {σ : Type} (c : Client σ) (lib : NetLib) (fuel : Nat) (s : σ)
    (fileID : String) (inc : Bool) (limit : Int) (out : Outcome σ)
    (h : c.ListFileMembers lib fuel s fileID inc limit = some out) :
    (out.members ≠ none ∧ out.err = none) ∨ (out.members = none ∧ out.err ≠ none) := by
  cases hreq : c.sendRequest lib "POST" "sharing/list_file_members"
      (some ({ File := fileID, IncludeInherited := inc, Limit := limit } :
        ListFileMembersRequestBody)) ListFileMembersRequestBody.Encode with
  | error e =>
    rw [listFileMembers_build_error c lib _ _ _ _ _ e hreq] at h
    cases h
    exact Or.inr ⟨rfl, by simp⟩
  | ok req =>
    rw [listFileMembers_build_ok c lib _ _ _ _ _ req hreq] at h
    split at h
    · rename_i herr
      cases h
      exact Or.inr ⟨rfl, herr⟩
    · rename_i herr
      rw [not_not.mp herr] at h
      exact continueLoop_either c lib _ _ _ _ _ _ h

/-! ## Claims -/

theorem cursorsOf_length (front : List ListFileMembersResponseBody)
    (hfront : ∀ p ∈ front, p.Cursor ≠ none) : (cursorsOf front).length = front.length := by
  induction front with
  | nil => rfl
  | cons p front ih =>
    obtain ⟨cu, hcu⟩ := Option.ne_none_iff_exists'.mp (hfront p (List.mem_cons_self _ _))
    simp only [cursorsOf, List.filterMap_cons, hcu, List.length_cons]
    exact congrArg (· + 1) (ih (fun q hq => hfront q (List.mem_cons_of_mem _ hq)))

/-- C1: when the transport answers the initial request and the continuation
requests with the pages `front ++ [last]`, every page of `front` carrying a
cursor and `last` carrying none, `ListFileMembers` returns, with no error, the
result whose Users, Groups and Invitees are the concatenation of the pages'
Users, Groups and Invitees in page order (given fuel for one iteration per page
of `front`). -/
theorem listFileMembers_concatenates_pages {σ : Type} (c : Client σ) (lib : NetLib)
    (s s' : σ) (fileID : String) (inc : Bool) (limit : Int)
    (front : List ListFileMembersResponseBody) (last : ListFileMembersResponseBody)
    (fuel : Nat)
    (hi : c.InitialBuildable lib) (hb : c.ContinueBuildable lib)
    (hfront : ∀ p ∈ front, p.Cursor ≠ none) (hlast : last.Cursor = none)
    (hans : c.Answers s (c.requests lib fileID inc limit (cursorsOf front))
      ((front ++ [last]).map .ok) s')
    (hfuel : front.length ≤ fuel) :
    c.ListFileMembers lib fuel s fileID inc limit =
      some { members := some
               { Users := ((front ++ [last]).map (fun p => p.Users)).flatten
                 Groups := ((front ++ [last]).map (fun p => p.Groups)).flatten
                 Invitees := ((front ++ [last]).map (fun p => p.Invitees)).flatten }
             err := none
             sent := c.requests lib fileID inc limit (cursorsOf front)
             state := s' } := by
  rw [List.map_append] at hans
  have hrun := listFileMembers_run c lib hi hb (.ok last) front (fuel - front.length) s s'
    fileID inc limit hfront hans
  rw [Nat.sub_add_cancel hfuel] at hrun
  rw [hrun]
  simp only [hlast, continueLoop_none, FileMembers.ofPages]

/-- C1, on pages P1 (cursor "abc"), P2 (cursor "def"), P3 (no cursor). -/
theorem listFileMembers_concatenates_pages_witness :
    demoClient.ListFileMembers plainLib 2 [okResponse page1, okResponse page2, okResponse page3]
        "id:ABC" true 1 =
      some { members := some { Users := [alice, bob], Groups := [staff], Invitees := [dave] }
             err := none
             sent := [demoClient.initialRequest plainLib "id:ABC" true 1,
                      demoClient.continueRequest plainLib "abc",
                      demoClient.continueRequest plainLib "def"]
             state := [] } :=
  listFileMembers_concatenates_pages demoClient plainLib _ _ "id:ABC" true 1 [page1, page2] page3 2
    rfl rfl (by decide) rfl ⟨rfl, rfl, rfl, rfl⟩ (by decide)

/-- C3: when the first response decodes successfully into a page with an
absent cursor, `ListFileMembers` (whatever the fuel) hands exactly one request
to the transport, the initial one, and returns, with no error, a result whose
Users, Groups and Invitees are that page's. -/
theorem listFileMembers_single_page {σ : Type} (c : Client σ) (lib : NetLib) (s : σ)
    (fileID : String) (inc : Bool) (limit : Int) (p : ListFileMembersResponseBody) (fuel : Nat)
    (hi : c.InitialBuildable lib)
    (hp : (c.do s (c.initialRequest lib fileID inc limit) {}).answer = .ok p)
    (hcur : p.Cursor = none) :
    c.ListFileMembers lib fuel s fileID inc limit =
      some { members := some { Users := p.Users, Groups := p.Groups, Invitees := p.Invitees }
             err := none
             sent := [c.initialRequest lib fileID inc limit]
             state := (c.do s (c.initialRequest lib fileID inc limit) {}).state } := by
  obtain ⟨he, hv⟩ := answer_ok _ p hp
  rw [listFileMembers_build_ok c lib fuel s fileID inc limit _ (sendRequest_initial c lib fileID inc limit hi)]
  simp only [he, ne_eq, not_true_eq_false, if_false, hv, hcur, continueLoop_none]

/-- C3, on the single page P3, with no fuel for the loop. -/
theorem listFileMembers_single_page_witness :
    demoClient.ListFileMembers plainLib 0 [okResponse page3] "id:ABC" true 1 =
      some { members := some { Users := [], Groups := [], Invitees := [dave] }
             err := none
             sent := [demoClient.initialRequest plainLib "id:ABC" true 1]
             state := [] } :=
  listFileMembers_single_page demoClient plainLib [okResponse page3] "id:ABC" true 1 page3 0
    rfl rfl rfl

/-- C4: let the transport answer the initial request and the continuation
requests that follow with the pages `front ++ [p]`, every page of `front`
carrying a cursor.  If `p` carries no cursor, `ListFileMembers` returns after
exactly `front.length + 1` requests (the initial one and one continuation per
page of `front`) and asks the transport nothing more.  If `p` carries a cursor
`cu`, the loop does not stop at `p`: with fuel for `front.length` iterations it
is still running, and whenever it returns, the continuation request for `cu`
was issued right after those requests. -/
theorem pagination_stops_iff_cursor_absent {σ : Type} (c : Client σ) (lib : NetLib)
    (s s' : σ) (fileID : String) (inc : Bool) (limit : Int)
    (front : List ListFileMembersResponseBody) (p : ListFileMembersResponseBody)
    (hi : c.InitialBuildable lib) (hb : c.ContinueBuildable lib)
    (hfront : ∀ q ∈ front, q.Cursor ≠ none)
    (hans : c.Answers s (c.requests lib fileID inc limit (cursorsOf front))
      ((front ++ [p]).map .ok) s') :
    (p.Cursor = none → ∀ fuel, front.length ≤ fuel →
      ∃ out, c.ListFileMembers lib fuel s fileID inc limit = some out ∧
        out.sent = c.requests lib fileID inc limit (cursorsOf front) ∧
        out.sent.length = front.length + 1 ∧ out.state = s') ∧
    (∀ cu, p.Cursor = some cu →
      c.ListFileMembers lib front.length s fileID inc limit = none ∧
      ∀ fuel out, c.ListFileMembers lib fuel s fileID inc limit = some out →
        (c.requests lib fileID inc limit (cursorsOf front) ++ [c.continueRequest lib cu])
          <+: out.sent) := by
  rw [List.map_append] at hans
  have hrun := fun fuel => listFileMembers_run c lib hi hb (.ok p) front fuel s s'
    fileID inc limit hfront hans
  simp only at hrun
  refine ⟨?_, ?_⟩
  · intro hcur fuel hfuel
    have h := hrun (fuel - front.length)
    rw [Nat.sub_add_cancel hfuel, hcur, continueLoop_none] at h
    refine ⟨_, h, rfl, ?_, rfl⟩
    simp [Client.requests, cursorsOf_length front hfront]
  · intro cu hcu
    refine ⟨?_, ?_⟩
    · have h := hrun 0
      rw [Nat.zero_add, hcu] at h
      rw [h]
      rfl
    · intro fuel out hout
      have h := hrun fuel
      rw [listFileMembers_fuel_add c lib front.length fuel s fileID inc limit out hout, hcu] at h
      exact continueLoop_sent_next c lib hb _ _ _ _ _ _ _ h.symm

/-- C4, on pages P1 (cursor "abc"), P2 (cursor "def"), P3 (no cursor): three
requests and a return; and on P1, P2 alone: no return with fuel for one
iteration, and the continuation request for "def" is issued. -/
theorem pagination_stops_iff_cursor_absent_witness :
    (∃ out, demoClient.ListFileMembers plainLib 2
        [okResponse page1, okResponse page2, okResponse page3] "id:ABC" true 1 = some out ∧
      out.sent = demoClient.requests plainLib "id:ABC" true 1 (cursorsOf [page1, page2]) ∧
      out.sent.length = [page1, page2].length + 1 ∧ out.state = []) ∧
    (demoClient.ListFileMembers plainLib [page1].length [okResponse page1, okResponse page2]
        "id:ABC" true 1 = none ∧
      ∀ fuel out, demoClient.ListFileMembers plainLib fuel [okResponse page1, okResponse page2]
          "id:ABC" true 1 = some out →
        (demoClient.requests plainLib "id:ABC" true 1 (cursorsOf [page1])
          ++ [demoClient.continueRequest plainLib "def"]) <+: out.sent) :=
  ⟨(pagination_stops_iff_cursor_absent demoClient plainLib
      [okResponse page1, okResponse page2, okResponse page3] [] "id:ABC" true 1 [page1, page2]
      page3 rfl rfl (by decide) ⟨rfl, rfl, rfl, rfl⟩).1 rfl 2 (by decide),
   (pagination_stops_iff_cursor_absent demoClient plainLib
      [okResponse page1, okResponse page2] [] "id:ABC" true 1 [page1]
      page2 rfl rfl (by decide) ⟨rfl, rfl, rfl⟩).2 "def" rfl⟩

/-- C5: under the conditions of C1 the requests handed to the transport are, in
this order, one POST to `sharing/list_file_members` with body
`{file: fileID, include_inherited: includeInherited, limit: limit}` and then,
for each page of `front` in turn, one POST to
`sharing/list_file_members/continue` with body `{cursor: cu}`, `cu` being that
page's cursor. -/
theorem issued_requests_shape {σ : Type} (c : Client σ) (lib : NetLib)
    (s s' : σ) (fileID : String) (inc : Bool) (limit : Int)
    (front : List ListFileMembersResponseBody) (last : ListFileMembersResponseBody)
    (fuel : Nat)
    (hi : c.InitialBuildable lib) (hb : c.ContinueBuildable lib)
    (hfront : ∀ p ∈ front, p.Cursor ≠ none) (hlast : last.Cursor = none)
    (hans : c.Answers s (c.requests lib fileID inc limit (cursorsOf front))
      ((front ++ [last]).map .ok) s')
    (hfuel : front.length ≤ fuel) :
    ∃ out, c.ListFileMembers lib fuel s fileID inc limit = some out ∧
      out.sent.map (fun r => (r.Method, r.URL, r.Body)) =
        ("POST", lib.ResolveReference c.BaseURL "sharing/list_file_members",
          some [("file", .str fileID), ("include_inherited", .bool inc), ("limit", .num limit)])
        :: (cursorsOf front).map (fun cu =>
          ("POST", lib.ResolveReference c.BaseURL "sharing/list_file_members/continue",
            some [("cursor", JSONValue.str cu)])) ∧
      front.map (fun p => p.Cursor) = (cursorsOf front).map some := by
  rw [List.map_append] at hans
  have hrun := listFileMembers_run c lib hi hb (.ok last) front (fuel - front.length) s s'
    fileID inc limit hfront hans
  rw [Nat.sub_add_cancel hfuel] at hrun
  simp only [hlast, continueLoop_none] at hrun
  refine ⟨_, hrun, ?_, ?_⟩
  · simp [Client.requests, Client.initialRequest, Client.continueRequest, Client.newPost]
  · clear hrun hans hfuel
    induction front with
    | nil => rfl
    | cons q front ih =>
      obtain ⟨cu, hcu⟩ := Option.ne_none_iff_exists'.mp (hfront q (List.mem_cons_self _ _))
      simp only [cursorsOf, List.filterMap_cons, hcu, List.map_cons]
      exact congrArg _ (ih (fun r hr => hfront r (List.mem_cons_of_mem _ hr)))

/-- C5, on inputs "id:ABC", true, 1 and pages P1 (cursor "abc"), P2 (cursor
"def"), P3 (no cursor). -/
theorem issued_requests_shape_witness :
    ∃ out, demoClient.ListFileMembers plainLib 2
        [okResponse page1, okResponse page2, okResponse page3] "id:ABC" true 1 = some out ∧
      out.sent.map (fun r => (r.Method, r.URL, r.Body)) =
        [("POST", "https://api.dropboxapi.com/2/sharing/list_file_members",
          some [("file", .str "id:ABC"), ("include_inherited", .bool true), ("limit", .num 1)]),
         ("POST", "https://api.dropboxapi.com/2/sharing/list_file_members/continue",
          some [("cursor", .str "abc")]),
         ("POST", "https://api.dropboxapi.com/2/sharing/list_file_members/continue",
          some [("cursor", .str "def")])] ∧
      [page1, page2].map (fun p => p.Cursor) = [some "abc", some "def"] :=
  issued_requests_shape demoClient plainLib _ _ "id:ABC" true 1 [page1, page2] page3 2
    rfl rfl (by decide) rfl ⟨rfl, rfl, rfl, rfl⟩ (by decide)

/-- C2: a failing call aborts `ListFileMembers` with that call's error and no
result.  The transport having answered the first `front.length` calls with the
pages `front`, each carrying a cursor: (a) if the next call of `do` fails with
`e`, the outcome is `(nil, e)` and the failing request is the last one handed
to the transport; (b) in particular so when, on the next request (the initial
one when `front` is empty, a continuation otherwise), the transport reports
the error `e`, or delivers a response whose body the decoder rejects with `e`.
(c) If building the initial request fails with `e0`, the outcome is
`(nil, e0)` and no request is issued.  (d) If the first page carries a cursor
and building the continuation request fails with `e0`, the outcome is
`(nil, e0)` and only the initial request was issued.  (e) Every outcome is a
result without error or an error without result. -/
theorem listFileMembers_error_aborts {σ : Type} (c : Client σ) (lib : NetLib)
    (s s' : σ) (fileID : String) (inc : Bool) (limit : Int)
    (front : List ListFileMembersResponseBody) (e : Error) (fuel : Nat)
    (hfront : ∀ p ∈ front, p.Cursor ≠ none) (hfuel : front.length ≤ fuel) :
    (c.InitialBuildable lib → c.ContinueBuildable lib →
      c.Answers s (c.requests lib fileID inc limit (cursorsOf front))
        (front.map .ok ++ [.error e]) s' →
      c.ListFileMembers lib fuel s fileID inc limit =
        some { members := none, err := some e
               sent := c.requests lib fileID inc limit (cursorsOf front), state := s' }) ∧
    (c.InitialBuildable lib → c.ContinueBuildable lib →
      ∀ (reqs : List Request) (failing : Request) (s1 : σ),
      reqs ++ [failing] = c.requests lib fileID inc limit (cursorsOf front) →
      c.Answers s reqs (front.map .ok) s1 →
      (c.httpClient s1 failing = (.error e, s') ∨
        ∃ status, c.httpClient s1 failing
          = (.ok { StatusCode := status, Body := .malformed e }, s')) →
      c.ListFileMembers lib fuel s fileID inc limit =
        some { members := none, err := some e
               sent := reqs ++ [failing], state := s' }) ∧
    (∀ e0, c.sendRequest lib "POST" "sharing/list_file_members"
        (some ({ File := fileID, IncludeInherited := inc, Limit := limit } :
          ListFileMembersRequestBody)) ListFileMembersRequestBody.Encode = .error e0 →
      c.ListFileMembers lib fuel s fileID inc limit =
        some { members := none, err := some e0, sent := [], state := s }) ∧
    (∀ e0 p cu n, c.InitialBuildable lib →
      (c.do s (c.initialRequest lib fileID inc limit) {}).answer = .ok p → p.Cursor = some cu →
      c.sendRequest lib "POST" "sharing/list_file_members/continue"
        (some ({ Cursor := cu } : ListMembersContinueRequestBody))
        ListMembersContinueRequestBody.Encode = .error e0 →
      c.ListFileMembers lib (n + 1) s fileID inc limit =
        some { members := none, err := some e0
               sent := [c.initialRequest lib fileID inc limit]
               state := (c.do s (c.initialRequest lib fileID inc limit) {}).state }) ∧
    (∀ out, c.ListFileMembers lib fuel s fileID inc limit = some out →
      (out.members ≠ none ∧ out.err = none) ∨ (out.members = none ∧ out.err ≠ none)) := by
  have hrunE : c.InitialBuildable lib → c.ContinueBuildable lib →
      c.Answers s (c.requests lib fileID inc limit (cursorsOf front))
        (front.map .ok ++ [.error e]) s' →
      c.ListFileMembers lib fuel s fileID inc limit =
        some { members := none, err := some e
               sent := c.requests lib fileID inc limit (cursorsOf front), state := s' } := by
    intro hi hb hans
    have hrun := listFileMembers_run c lib hi hb (.error e) front (fuel - front.length) s s'
      fileID inc limit hfront hans
    rw [Nat.sub_add_cancel hfuel] at hrun
    exact hrun
  refine ⟨hrunE, ?_, ?_, ?_, ?_⟩
  · intro hi hb reqs failing s1 hreqs hans hraw
    obtain ⟨ha, hs⟩ := do_raw_failure c s1 s' failing {} e hraw
    have hall := answers_snoc c failing (.error e) s' reqs _ s s1 hans ha hs
    rw [hreqs] at hall ⊢
    exact hrunE hi hb hall
  · intro e0 h0
    exact listFileMembers_build_error c lib fuel s fileID inc limit e0 h0
  · intro e0 p cu n hi hp hcu hcont
    obtain ⟨he, hv⟩ := answer_ok _ p hp
    rw [listFileMembers_build_ok c lib (n + 1) s fileID inc limit _
      (sendRequest_initial c lib fileID inc limit hi)]
    simp only [he, ne_eq, not_true_eq_false, if_false, hv, hcu]
    exact continueLoop_succ_error c lib _ _ _ _ _ _ e0 hcont
  · intro out hout
    exact listFileMembers_either c lib fuel s fileID inc limit out hout

/-- C2, on page P1 (cursor "abc") followed, on the continuation call, by a
body that is not JSON, and by a transport error: the error is returned, P1's
entries are not; on a body that is not JSON in answer to the initial request;
and on a library that refuses to build the initial request: its error is
returned and nothing is sent. -/
theorem listFileMembers_error_aborts_witness :
    demoClient.ListFileMembers plainLib 1
        [okResponse page1,
         .ok { StatusCode := 200, Body := .malformed { msg := "invalid character at offset 0" } },
         okResponse page3] "id:ABC" true 1 =
      some { members := none, err := some { msg := "invalid character at offset 0" }
             sent := [demoClient.initialRequest plainLib "id:ABC" true 1]
               ++ [demoClient.continueRequest plainLib "abc"]
             state := [okResponse page3] } ∧
    demoClient.ListFileMembers plainLib 1
        [okResponse page1, .error { msg := "connection reset" }] "id:ABC" true 1 =
      some { members := none, err := some { msg := "connection reset" }
             sent := [demoClient.initialRequest plainLib "id:ABC" true 1]
               ++ [demoClient.continueRequest plainLib "abc"]
             state := [] } ∧
    demoClient.ListFileMembers plainLib 0
        [.ok { StatusCode := 500, Body := .malformed { msg := "unexpected EOF" } }]
        "id:ABC" true 1 =
      some { members := none, err := some { msg := "unexpected EOF" }
             sent := [] ++ [demoClient.initialRequest plainLib "id:ABC" true 1]
             state := [] } ∧
    demoClient.ListFileMembers rejectingLib 0 [okResponse page3] "id:ABC" true 1 =
      some { members := none, err := some { msg := "net/http: invalid request" }
             sent := [], state := [okResponse page3] } :=
  ⟨(listFileMembers_error_aborts demoClient plainLib
      [okResponse page1,
       .ok { StatusCode := 200, Body := .malformed { msg := "invalid character at offset 0" } },
       okResponse page3] [okResponse page3] "id:ABC" true 1 [page1]
      { msg := "invalid character at offset 0" } 1 (by decide) (by decide)).2.1 rfl rfl
      [demoClient.initialRequest plainLib "id:ABC" true 1]
      (demoClient.continueRequest plainLib "abc")
      [.ok { StatusCode := 200, Body := .malformed { msg := "invalid character at offset 0" } },
       okResponse page3]
      rfl ⟨rfl, rfl⟩ (Or.inr ⟨200, rfl⟩),
   (listFileMembers_error_aborts demoClient plainLib
      [okResponse page1, .error { msg := "connection reset" }] [] "id:ABC" true 1 [page1]
      { msg := "connection reset" } 1 (by decide) (by decide)).2.1 rfl rfl
      [demoClient.initialRequest plainLib "id:ABC" true 1]
      (demoClient.continueRequest plainLib "abc")
      [.error { msg := "connection reset" }]
      rfl ⟨rfl, rfl⟩ (Or.inl rfl),
   (listFileMembers_error_aborts demoClient plainLib
      [.ok { StatusCode := 500, Body := .malformed { msg := "unexpected EOF" } }] []
      "id:ABC" true 1 [] { msg := "unexpected EOF" } 0 (by decide) (by decide)).2.1 rfl rfl
      [] (demoClient.initialRequest plainLib "id:ABC" true 1)
      [.ok { StatusCode := 500, Body := .malformed { msg := "unexpected EOF" } }]
      rfl rfl (Or.inr ⟨500, rfl⟩),
   (listFileMembers_error_aborts demoClient rejectingLib [okResponse page3] [] "id:ABC" true 1 []
      { msg := "connection reset" } 0 (by decide) (by decide)).2.2.1
      { msg := "net/http: invalid request" } rfl⟩

theorem cycling_loop_runs_on (c : Client Unit) (hc : c.httpClient = cycling) (lib : NetLib)
    (hb : c.ContinueBuildable lib) :
    ∀ (fuel : Nat) (sent : List Request) (fm : FileMembers) (err0 : Option Error),
      c.continueLoop lib fuel () sent fm (some "abc") err0 = none := by
  intro fuel
  induction fuel with
  | zero => intro sent fm err0; rfl
  | succ n ih =>
    intro sent fm err0
    rw [continueLoop_succ_ok c lib _ _ _ _ _ _ _ (sendRequest_continue c lib "abc" hb)]
    have hdo : ∀ req, c.do () req {} =
        { resp := some { StatusCode := 200, Body := .object { cursor := .value "abc" } }
          err := none, v := { Cursor := some "abc" }, state := () } := by
      intro req
      simp [Client.do, hc, cycling, Decode, Field.storeSlice, Field.storePointer]
    simp only [hdo, ne_eq, not_true_eq_false, if_false]
    exact ih _ _ _

theorem sentCursors_requests {σ : Type} (c : Client σ) (lib : NetLib) (fileID : String)
    (inc : Bool) (limit : Int) (cursors : List String) :
    sentCursors (c.requests lib fileID inc limit cursors) = cursors := by
  have hcont : ∀ cs : List String, sentCursors (cs.map (c.continueRequest lib)) = cs := by
    intro cs
    induction cs with
    | nil => rfl
    | cons cu cs ih =>
      simp only [sentCursors, List.map_cons, List.filterMap_cons] at ih ⊢
      simp [Client.continueRequest, Client.newPost, List.lookup, ih]
  have h := hcont cursors
  simp only [sentCursors] at h
  simp [sentCursors, Client.requests, Client.initialRequest, Client.newPost, List.lookup,
    List.filterMap_cons, h]

/-- C6, refuted: against a transport that hands out the cursor "abc" on every
page `ListFileMembers` returns for no amount of fuel, and against one that
hands out "abc" twice before a cursor-less page it sends the cursor "abc"
twice. -/
theorem pagination_may_cycle :
    (∀ fuel, (NewClient "t0k3n" cycling).ListFileMembers plainLib fuel () "id:ABC" true 1 = none) ∧
    (∃ out, demoClient.ListFileMembers plainLib 2
        [okResponse page1, okResponse page1, okResponse page3] "id:ABC" true 1 = some out ∧
      sentCursors out.sent = ["abc", "abc"] ∧ ¬ (sentCursors out.sent).Nodup) := by
  refine ⟨?_, ?_⟩
  · intro fuel
    rw [listFileMembers_build_ok (NewClient "t0k3n" cycling) plainLib fuel () "id:ABC" true 1 _
      (sendRequest_initial _ plainLib "id:ABC" true 1 rfl)]
    have hdo : ∀ req, (NewClient "t0k3n" cycling).do () req {} =
        { resp := some { StatusCode := 200, Body := .object { cursor := .value "abc" } }
          err := none, v := { Cursor := some "abc" }, state := () } := by
      intro req
      simp [Client.do, NewClient, cycling, Decode, Field.storeSlice, Field.storePointer]
    simp only [hdo, ne_eq, not_true_eq_false, if_false]
    exact cycling_loop_runs_on _ rfl plainLib rfl fuel _ _ _
  · have hrun := listFileMembers_run demoClient plainLib rfl rfl (.ok page3) [page1, page1] 0
      [okResponse page1, okResponse page1, okResponse page3] [] "id:ABC" true 1 (by decide)
      ⟨rfl, rfl, rfl, rfl⟩
    refine ⟨_, hrun, ?_⟩
    have hc : sentCursors (demoClient.requests plainLib "id:ABC" true 1 (cursorsOf [page1, page1]))
        = ["abc", "abc"] := by
      rw [sentCursors_requests]; rfl
    have hp3 : page3.Cursor = none := rfl
    simp only [hp3, continueLoop_none, hc]
    simp

/-- C6, amended: when the transport answers with the pages `front ++ [last]`,
every page of `front` carrying a cursor and `last` carrying none, pagination
terminates, and the cursors sent in the continuation requests are exactly the
cursors of the pages of `front`, in page order; so they are pairwise distinct
whenever the cursors the server handed out are. -/
theorem pagination_follows_server_cursors {σ : Type} (c : Client σ) (lib : NetLib)
    (s s' : σ) (fileID : String) (inc : Bool) (limit : Int)
    (front : List ListFileMembersResponseBody) (last : ListFileMembersResponseBody)
    (fuel : Nat)
    (hi : c.InitialBuildable lib) (hb : c.ContinueBuildable lib)
    (hfront : ∀ p ∈ front, p.Cursor ≠ none) (hlast : last.Cursor = none)
    (hans : c.Answers s (c.requests lib fileID inc limit (cursorsOf front))
      ((front ++ [last]).map .ok) s')
    (hfuel : front.length ≤ fuel) :
    ∃ out, c.ListFileMembers lib fuel s fileID inc limit = some out ∧
      sentCursors out.sent = cursorsOf front ∧
      ((cursorsOf front).Nodup → (sentCursors out.sent).Nodup) := by
  rw [List.map_append] at hans
  have hrun := listFileMembers_run c lib hi hb (.ok last) front (fuel - front.length) s s'
    fileID inc limit hfront hans
  rw [Nat.sub_add_cancel hfuel] at hrun
  simp only [hlast, continueLoop_none] at hrun
  refine ⟨_, hrun, ?_, ?_⟩
  · exact sentCursors_requests c lib fileID inc limit _
  · intro hnd
    simp only [sentCursors_requests]
    exact hnd

/-- C6 amended, on pages P1 (cursor "abc"), P2 (cursor "def"), P3 (no cursor). -/
theorem pagination_follows_server_cursors_witness :
    ∃ out, demoClient.ListFileMembers plainLib 2
        [okResponse page1, okResponse page2, okResponse page3] "id:ABC" true 1 = some out ∧
      sentCursors out.sent = ["abc", "def"] ∧
      ((cursorsOf [page1, page2]).Nodup → (sentCursors out.sent).Nodup) :=
  pagination_follows_server_cursors demoClient plainLib _ _ "id:ABC" true 1 [page1, page2] page3 2
    rfl rfl (by decide) rfl ⟨rfl, rfl, rfl, rfl⟩ (by decide)

/-! ### Headers -/

theorem sendRequest_headers {σ β : Type} (c : Client σ) (lib : NetLib) (method path : String)
    (body : Option β) (encode : β → Except Error JSONObject) (req : Request)
    (h : c.sendRequest lib method path body encode = .ok req) :
    req.Header.Values "Accept" = ["application/json"] ∧
    req.Header.Values "Authorization" = ["Bearer " ++ c.accessToken] ∧
    req.Header.Values "Content-Type" = if body.isSome then ["application/json"] else [] := by
  unfold Client.sendRequest NewRequest at h
  cases body with
  | none =>
    simp only at h
    cases hn : lib.newRequestError (if method = "" then "GET" else method)
        (lib.ResolveReference c.BaseURL path) with
    | some e => rw [hn] at h; simp at h
    | none =>
      rw [hn] at h
      simp only [Option.isSome_none, Bool.false_eq_true, if_false, Except.ok.injEq] at h
      subst h
      simp [Header.Values, Header.Set, Header.Add, List.lookup]
  | some b =>
    simp only at h
    cases he : encode b with
    | error e => rw [he] at h; simp at h
    | ok js =>
      rw [he] at h
      simp only at h
      cases hn : lib.newRequestError (if method = "" then "GET" else method)
          (lib.ResolveReference c.BaseURL path) with
      | some e => rw [hn] at h; simp at h
      | none =>
        rw [hn] at h
        simp only [Option.isSome_some, if_true, Except.ok.injEq] at h
        subst h
        simp [Header.Values, Header.Set, Header.Add, List.lookup]

/-- C7: a request built by `sendRequest` on a client with token `t` carries
`Accept: application/json` and `Authorization: Bearer t`, each as its only
value, and carries `Content-Type: application/json` exactly when a body is
present (no Content-Type at all otherwise); and every request `ListFileMembers`
hands to the transport carries all three. -/
theorem requests_carry_headers {σ β : Type} (c : Client σ) (lib : NetLib) (method path : String)
    (body : Option β) (encode : β → Except Error JSONObject) (req : Request)
    (h : c.sendRequest lib method path body encode = .ok req) :
    (req.Header.Get "Accept" = "application/json" ∧
     req.Header.Values "Accept" = ["application/json"]) ∧
    (req.Header.Get "Authorization" = "Bearer " ++ c.accessToken ∧
     req.Header.Values "Authorization" = ["Bearer " ++ c.accessToken]) ∧
    (req.Header.Values "Content-Type" = ["application/json"] ↔ body ≠ none) ∧
    (body = none → req.Header.Values "Content-Type" = []) ∧
    (∀ fuel s fileID inc limit out,
      c.ListFileMembers lib fuel s fileID inc limit = some out →
      ∀ r ∈ out.sent,
        r.Header.Values "Accept" = ["application/json"] ∧
        r.Header.Values "Authorization" = ["Bearer " ++ c.accessToken] ∧
        r.Header.Values "Content-Type" = ["application/json"]) := by
  obtain ⟨ha, hz, hc⟩ := sendRequest_headers c lib method path body encode req h
  refine ⟨⟨?_, ha⟩, ⟨?_, hz⟩, ?_, ?_, ?_⟩
  · simp [Header.Get, ha]
  · simp [Header.Get, hz]
  · rw [hc]
    cases body <;> simp
  · intro hb
    rw [hc, hb]
    rfl
  · intro fuel s fileID inc limit out hout r hr
    have hP : ∀ {β' : Type} (path' : String) (b : β') (enc : β' → Except Error JSONObject)
        (req' : Request), c.sendRequest lib "POST" path' (some b) enc = .ok req' →
        req'.Header.Values "Accept" = ["application/json"] ∧
        req'.Header.Values "Authorization" = ["Bearer " ++ c.accessToken] ∧
        req'.Header.Values "Content-Type" = ["application/json"] := by
      intro β' path' b enc req' h'
      obtain ⟨h1, h2, h3⟩ := sendRequest_headers c lib "POST" path' (some b) enc req' h'
      exact ⟨h1, h2, by simpa using h3⟩
    cases hreq : c.sendRequest lib "POST" "sharing/list_file_members"
        (some ({ File := fileID, IncludeInherited := inc, Limit := limit } :
          ListFileMembersRequestBody)) ListFileMembersRequestBody.Encode with
    | error e =>
      rw [listFileMembers_build_error c lib _ _ _ _ _ e hreq] at hout
      cases hout
      simp at hr
    | ok req0 =>
      have h0 := hP _ _ _ req0 hreq
      have hs0 : ∀ r ∈ [req0],
          r.Header.Values "Accept" = ["application/json"] ∧
          r.Header.Values "Authorization" = ["Bearer " ++ c.accessToken] ∧
          r.Header.Values "Content-Type" = ["application/json"] := by
        intro r hr
        rw [List.mem_singleton.mp hr]
        exact h0
      rw [listFileMembers_build_ok c lib _ _ _ _ _ req0 hreq] at hout
      split at hout
      · cases hout
        exact hs0 r hr
      · exact continueLoop_sent_all c lib _ (fun cu req' h' => hP _ _ _ req' h')
          _ _ _ _ _ _ _ hs0 hout r hr

/-- C7, on the initial request for "id:ABC", true, 1 built with token "t0k3n". -/
theorem requests_carry_headers_witness :
    ((demoClient.initialRequest plainLib "id:ABC" true 1).Header.Get "Accept"
        = "application/json" ∧
     (demoClient.initialRequest plainLib "id:ABC" true 1).Header.Values "Accept"
        = ["application/json"]) ∧
    ((demoClient.initialRequest plainLib "id:ABC" true 1).Header.Get "Authorization"
        = "Bearer " ++ "t0k3n" ∧
     (demoClient.initialRequest plainLib "id:ABC" true 1).Header.Values "Authorization"
        = ["Bearer " ++ "t0k3n"]) :=
  have h := requests_carry_headers demoClient plainLib "POST" "sharing/list_file_members"
    (some ({ File := "id:ABC", IncludeInherited := true, Limit := 1 } :
      ListFileMembersRequestBody)) ListFileMembersRequestBody.Encode
    (demoClient.initialRequest plainLib "id:ABC" true 1)
    (sendRequest_initial demoClient plainLib "id:ABC" true 1 rfl)
  ⟨h.1, h.2.1⟩

/-! ### Status codes -/

theorem sendRequest_congr {σ₁ σ₂ β : Type} (c1 : Client σ₁) (c2 : Client σ₂) (lib : NetLib)
    (hurl : c1.BaseURL = c2.BaseURL) (htok : c1.accessToken = c2.accessToken)
    (method path : String) (body : Option β) (encode : β → Except Error JSONObject) :
    c1.sendRequest lib method path body encode = c2.sendRequest lib method path body encode := by
  simp only [Client.sendRequest, hurl, htok]

theorem do_agree {σ₁ σ₂ : Type} (c1 : Client σ₁) (c2 : Client σ₂) (R : σ₁ → σ₂ → Prop)
    (hsim : ∀ s1 s2 req, R s1 s2 →
      SameButStatus (c1.httpClient s1 req).1 (c2.httpClient s2 req).1 ∧
      R (c1.httpClient s1 req).2 (c2.httpClient s2 req).2)
    (s1 : σ₁) (s2 : σ₂) (req : Request) (v : ListFileMembersResponseBody) (h : R s1 s2) :
    (c1.do s1 req v).err = (c2.do s2 req v).err ∧ (c1.do s1 req v).v = (c2.do s2 req v).v ∧
    R (c1.do s1 req v).state (c2.do s2 req v).state := by
  have hs := hsim s1 s2 req h
  unfold Client.do
  rcases h1 : c1.httpClient s1 req with ⟨a1, t1⟩
  rcases h2 : c2.httpClient s2 req with ⟨a2, t2⟩
  rw [h1, h2] at hs
  obtain ⟨hsame, hR⟩ := hs
  cases a1 with
  | error e1 =>
    cases a2 with
    | error e2 =>
      simp only [SameButStatus] at hsame
      exact ⟨by rw [hsame], rfl, hR⟩
    | ok r2 => simp [SameButStatus] at hsame
  | ok r1 =>
    cases a2 with
    | error e2 => simp [SameButStatus] at hsame
    | ok r2 =>
      simp only [SameButStatus] at hsame
      exact ⟨by simp only [hsame], by simp only [hsame], hR⟩

theorem continueLoop_agree {σ₁ σ₂ : Type} (c1 : Client σ₁) (c2 : Client σ₂) (lib : NetLib)
    (R : σ₁ → σ₂ → Prop)
    (hurl : c1.BaseURL = c2.BaseURL) (htok : c1.accessToken = c2.accessToken)
    (hsim : ∀ s1 s2 req, R s1 s2 →
      SameButStatus (c1.httpClient s1 req).1 (c2.httpClient s2 req).1 ∧
      R (c1.httpClient s1 req).2 (c2.httpClient s2 req).2) :
    ∀ (fuel : Nat) (s1 : σ₁) (s2 : σ₂) (sent : List Request) (fm : FileMembers)
      (cur : Option String) (err0 : Option Error), R s1 s2 →
      Outcome.Agree R (c1.continueLoop lib fuel s1 sent fm cur err0)
        (c2.continueLoop lib fuel s2 sent fm cur err0) := by
  intro fuel
  induction fuel with
  | zero =>
    intro s1 s2 sent fm cur err0 h
    cases cur with
    | none =>
      rw [continueLoop_none, continueLoop_none]
      exact ⟨rfl, rfl, rfl, h⟩
    | some cu => simp [Client.continueLoop, Outcome.Agree]
  | succ n ih =>
    intro s1 s2 sent fm cur err0 h
    cases cur with
    | none =>
      rw [continueLoop_none, continueLoop_none]
      exact ⟨rfl, rfl, rfl, h⟩
    | some cu =>
      have hcongr := sendRequest_congr c1 c2 lib hurl htok "POST"
        "sharing/list_file_members/continue"
        (some ({ Cursor := cu } : ListMembersContinueRequestBody))
        ListMembersContinueRequestBody.Encode
      cases hreq : c1.sendRequest lib "POST" "sharing/list_file_members/continue"
          (some ({ Cursor := cu } : ListMembersContinueRequestBody))
          ListMembersContinueRequestBody.Encode with
      | error e =>
        rw [continueLoop_succ_error c1 lib _ _ _ _ _ _ e hreq,
          continueLoop_succ_error c2 lib _ _ _ _ _ _ e (hcongr ▸ hreq)]
        exact ⟨rfl, rfl, rfl, h⟩
      | ok req =>
        rw [continueLoop_succ_ok c1 lib _ _ _ _ _ _ req hreq,
          continueLoop_succ_ok c2 lib _ _ _ _ _ _ req (hcongr ▸ hreq)]
        obtain ⟨he, hv, hR⟩ := do_agree c1 c2 R hsim s1 s2 req {} h
        rw [he, hv]
        by_cases herr : (c2.do s2 req {}).err ≠ none
        · rw [if_pos herr, if_pos herr]
          exact ⟨rfl, rfl, rfl, hR⟩
        · rw [if_neg herr, if_neg herr]
          exact ih _ _ _ _ _ _ hR

/-- On transports that agree up to the status code, `ListFileMembers` behaves
alike. -/
theorem listFileMembers_agree {σ₁ σ₂ : Type} (c1 : Client σ₁) (c2 : Client σ₂)
    (lib : NetLib) (R : σ₁ → σ₂ → Prop) (s1 : σ₁) (s2 : σ₂) (fuel : Nat)
    (fileID : String) (inc : Bool) (limit : Int)
    (hurl : c1.BaseURL = c2.BaseURL) (htok : c1.accessToken = c2.accessToken)
    (hsim : ∀ t1 t2 req, R t1 t2 →
      SameButStatus (c1.httpClient t1 req).1 (c2.httpClient t2 req).1 ∧
      R (c1.httpClient t1 req).2 (c2.httpClient t2 req).2)
    (h0 : R s1 s2) :
    Outcome.Agree R (c1.ListFileMembers lib fuel s1 fileID inc limit)
      (c2.ListFileMembers lib fuel s2 fileID inc limit) := by
  have hcongr := sendRequest_congr c1 c2 lib hurl htok "POST" "sharing/list_file_members"
    (some ({ File := fileID, IncludeInherited := inc, Limit := limit } :
      ListFileMembersRequestBody)) ListFileMembersRequestBody.Encode
  cases hreq : c1.sendRequest lib "POST" "sharing/list_file_members"
      (some ({ File := fileID, IncludeInherited := inc, Limit := limit } :
        ListFileMembersRequestBody)) ListFileMembersRequestBody.Encode with
  | error e =>
    rw [listFileMembers_build_error c1 lib _ _ _ _ _ e hreq,
      listFileMembers_build_error c2 lib _ _ _ _ _ e (hcongr ▸ hreq)]
    exact ⟨rfl, rfl, rfl, h0⟩
  | ok req =>
    rw [listFileMembers_build_ok c1 lib _ _ _ _ _ req hreq,
      listFileMembers_build_ok c2 lib _ _ _ _ _ req (hcongr ▸ hreq)]
    obtain ⟨he, hv, hR⟩ := do_agree c1 c2 R hsim s1 s2 req {} h0
    rw [he, hv]
    by_cases herr : (c2.do s2 req {}).err ≠ none
    · rw [if_pos herr, if_pos herr]
      exact ⟨rfl, rfl, rfl, hR⟩
    · rw [if_neg herr, if_neg herr]
      exact continueLoop_agree c1 c2 lib R hurl htok hsim _ _ _ _ _ _ _ hR

/-- A reply that the default HTTP client does not follow is handed to the
caller as it is, after one request to the server. -/
theorem httpClientDo_not_followed {σ : Type} (rl : RedirectLib) (server : Server σ) (s : σ)
    (req : Request)
    (hno : ∀ reply, (server s req).1 = .ok reply →
      (redirectBehavior req.Method reply.StatusCode).isSome → reply.Location = "") :
    httpClientDo rl server s req =
      (match (server s req).1 with
       | .error err => .error err
       | .ok reply => .ok { StatusCode := reply.StatusCode, Body := reply.Body },
       (server s req).2) := by
  have h10 : (10 : Nat) = 9 + 1 := rfl
  unfold httpClientDo
  rw [h10, followRedirects]
  rcases hsr : server s req with ⟨a, t⟩
  rw [hsr] at hno
  cases a with
  | error err => rfl
  | ok reply =>
    simp only
    cases hrb : redirectBehavior req.Method reply.StatusCode with
    | none => rfl
    | some mb =>
      have hloc := hno reply rfl (by rw [hrb]; rfl)
      simp only [hloc, if_true]

/-- C8, refuted as stated: of two servers that give the same body and the same
headers to every request and differ only in the status code, 200 against 302,
the first makes `ListFileMembers` return page P3 and the second makes it
return an error, because the default HTTP client follows the redirect (ten
times) before `do` sees a response. -/
theorem redirect_status_changes_result :
    (NewClient "t0k3n" (httpClientDo plainRedirects (constantServer 200))).ListFileMembers
        plainLib 0 () "id:ABC" true 1 =
      some { members := some { Users := [], Groups := [], Invitees := [dave] }
             err := none
             sent := [demoClient.initialRequest plainLib "id:ABC" true 1]
             state := () } ∧
    (NewClient "t0k3n" (httpClientDo plainRedirects (constantServer 302))).ListFileMembers
        plainLib 0 () "id:ABC" true 1 =
      some { members := none
             err := some { msg := "stopped after 10 redirects" }
             sent := [demoClient.initialRequest plainLib "id:ABC" true 1]
             state := () } ∧
    ServerSameButStatus (constantServer 200 () (demoClient.initialRequest plainLib "id:ABC" true 1)).1
      (constantServer 302 () (demoClient.initialRequest plainLib "id:ABC" true 1)).1 :=
  ⟨rfl, rfl, rfl, rfl⟩

/-- C8, amended: the code of the client never inspects a status code.  Take
two behaviours of `c.httpClient.Do`, related by `R`, that from related states
and on the same request give the same error or responses with the same body
(the status codes may differ), and move to related states.  Then
`ListFileMembers` behaves alike on both: it runs out of fuel on both or
returns the same result, the same error and the same list of issued requests;
and `do` hands the response, status code included, back to its caller.  This
covers every two servers behind the default HTTP client that give the same
failures, bodies and `Location` headers and differ only in status codes, as
long as no reply is one the HTTP client follows (a 301, 302, 303, 307 or 308
with a `Location`). -/
theorem status_code_never_inspected {σ₁ σ₂ : Type} (c1 : Client σ₁) (c2 : Client σ₂)
    (lib : NetLib) (R : σ₁ → σ₂ → Prop) (s1 : σ₁) (s2 : σ₂) (fuel : Nat)
    (fileID : String) (inc : Bool) (limit : Int)
    (hurl : c1.BaseURL = c2.BaseURL) (htok : c1.accessToken = c2.accessToken)
    (hsim : ∀ t1 t2 req, R t1 t2 →
      SameButStatus (c1.httpClient t1 req).1 (c2.httpClient t2 req).1 ∧
      R (c1.httpClient t1 req).2 (c2.httpClient t2 req).2)
    (h0 : R s1 s2) :
    Outcome.Agree R (c1.ListFileMembers lib fuel s1 fileID inc limit)
      (c2.ListFileMembers lib fuel s2 fileID inc limit) ∧
    (∀ t req v resp t', c1.httpClient t req = (.ok resp, t') →
      (c1.do t req v).resp = some resp) ∧
    (∀ (rl : RedirectLib) (A : Server σ₁) (B : Server σ₂) (token : String),
      (∀ t1 t2 req, R t1 t2 →
        ServerSameButStatus (A t1 req).1 (B t2 req).1 ∧ R (A t1 req).2 (B t2 req).2) →
      (∀ t req reply, (A t req).1 = .ok reply →
        (redirectBehavior req.Method reply.StatusCode).isSome → reply.Location = "") →
      (∀ t req reply, (B t req).1 = .ok reply →
        (redirectBehavior req.Method reply.StatusCode).isSome → reply.Location = "") →
      Outcome.Agree R
        ((NewClient token (httpClientDo rl A)).ListFileMembers lib fuel s1 fileID inc limit)
        ((NewClient token (httpClientDo rl B)).ListFileMembers lib fuel s2 fileID inc limit)) := by
  refine ⟨listFileMembers_agree c1 c2 lib R s1 s2 fuel fileID inc limit hurl htok hsim h0, ?_, ?_⟩
  · intro t req v resp t' ht
    simp [Client.do, ht]
  · intro rl A B token hsrv hA hB
    refine listFileMembers_agree _ _ lib R s1 s2 fuel fileID inc limit rfl rfl ?_ h0
    intro t1 t2 req hR
    obtain ⟨hsame, hnext⟩ := hsrv t1 t2 req hR
    show SameButStatus (httpClientDo rl A t1 req).1 (httpClientDo rl B t2 req).1 ∧
      R (httpClientDo rl A t1 req).2 (httpClientDo rl B t2 req).2
    rw [httpClientDo_not_followed rl A t1 req (hA t1 req),
      httpClientDo_not_followed rl B t2 req (hB t2 req)]
    refine ⟨?_, hnext⟩
    rcases hA1 : (A t1 req).1 with e1 | r1 <;> rcases hB1 : (B t2 req).1 with e2 | r2 <;>
      rw [hA1, hB1] at hsame <;> simp only [ServerSameButStatus] at hsame
    · exact hsame
    · exact hsame.2

/-- C8 amended, on a transport answering 200 and one answering 500, both with
the same body, and on the servers answering 200 and 500 behind the default
HTTP client. -/
theorem status_code_never_inspected_witness :
    Outcome.Agree (fun _ _ => True)
      ((NewClient "t0k3n" (constantStatus 200)).ListFileMembers plainLib 3 () "id:ABC" true 1)
      ((NewClient "t0k3n" (constantStatus 500)).ListFileMembers plainLib 3 () "id:ABC" true 1) ∧
    Outcome.Agree (fun _ _ => True)
      ((NewClient "t0k3n" (httpClientDo plainRedirects (constantServer 200))).ListFileMembers
        plainLib 3 () "id:ABC" true 1)
      ((NewClient "t0k3n" (httpClientDo plainRedirects (constantServer 500))).ListFileMembers
        plainLib 3 () "id:ABC" true 1) :=
  have h := status_code_never_inspected (NewClient "t0k3n" (constantStatus 200))
    (NewClient "t0k3n" (constantStatus 500)) plainLib (fun _ _ => True) () () 3 "id:ABC" true 1
    rfl rfl (fun _ _ _ _ => ⟨rfl, trivial⟩) trivial
  ⟨h.1, h.2.2 plainRedirects (constantServer 200) (constantServer 500) "t0k3n"
    (fun _ _ _ _ => ⟨⟨rfl, rfl⟩, trivial⟩)
    (fun _ _ reply hr hs => by
      simp only [constantServer, Except.ok.injEq] at hr
      subst hr
      simp [redirectBehavior] at hs)
    (fun _ _ reply hr hs => by
      simp only [constantServer, Except.ok.injEq] at hr
      subst hr
      simp [redirectBehavior] at hs)⟩

/-! ### Input validation -/

/-- C9, refuted: called with an empty file identifier, or with a limit of zero
or below, `ListFileMembers` issues the initial request all the same and, the
transport answering with page P3, returns P3's entries and no error. -/
theorem no_input_validation :
    demoClient.ListFileMembers plainLib 0 [okResponse page3] "" true 0 =
      some { members := some { Users := [], Groups := [], Invitees := [dave] }
             err := none
             sent := [demoClient.initialRequest plainLib "" true 0]
             state := [] } ∧
    demoClient.ListFileMembers plainLib 0 [okResponse page3] "id:ABC" false (-1) =
      some { members := some { Users := [], Groups := [], Invitees := [dave] }
             err := none
             sent := [demoClient.initialRequest plainLib "id:ABC" false (-1)]
             state := [] } ∧
    (demoClient.initialRequest plainLib "" true 0).Body =
      some [("file", .str ""), ("include_inherited", .bool true), ("limit", .num 0)] :=
  ⟨rfl, rfl, rfl⟩

/-- C9, amended: no input is rejected before a request is issued.  Whatever
the file identifier (empty or not) and the limit (positive or not), when the
initial request can be built: (1) its body is
`{file: fileID, include_inherited: includeInherited, limit: limit}`; (2) if the
first response decodes into a page with no cursor, `ListFileMembers` returns,
for every fuel, that page's entries and no error, having issued exactly that
request; (3) if the first call of `do` fails, it returns, for every fuel, that
call's error, having issued exactly that request; (4) in every run that
returns, the initial request is the first one issued. -/
theorem inputs_pass_unvalidated {σ : Type} (c : Client σ) (lib : NetLib) (s : σ)
    (fileID : String) (inc : Bool) (limit : Int) (fuel : Nat)
    (hi : c.InitialBuildable lib) :
    (c.initialRequest lib fileID inc limit).Body =
      some [("file", .str fileID), ("include_inherited", .bool inc), ("limit", .num limit)] ∧
    (∀ p, (c.do s (c.initialRequest lib fileID inc limit) {}).answer = .ok p → p.Cursor = none →
      c.ListFileMembers lib fuel s fileID inc limit =
        some { members := some { Users := p.Users, Groups := p.Groups, Invitees := p.Invitees }
               err := none
               sent := [c.initialRequest lib fileID inc limit]
               state := (c.do s (c.initialRequest lib fileID inc limit) {}).state }) ∧
    (∀ e, (c.do s (c.initialRequest lib fileID inc limit) {}).answer = .error e →
      c.ListFileMembers lib fuel s fileID inc limit =
        some { members := none, err := some e
               sent := [c.initialRequest lib fileID inc limit]
               state := (c.do s (c.initialRequest lib fileID inc limit) {}).state }) ∧
    (∀ out, c.ListFileMembers lib fuel s fileID inc limit = some out →
      [c.initialRequest lib fileID inc limit] <+: out.sent) := by
  have hok := listFileMembers_build_ok c lib fuel s fileID inc limit _
    (sendRequest_initial c lib fileID inc limit hi)
  refine ⟨rfl, ?_, ?_, ?_⟩
  · intro p hp hcur
    obtain ⟨he, hv⟩ := answer_ok _ p hp
    rw [hok]
    simp only [he, ne_eq, not_true_eq_false, if_false, hv, hcur, continueLoop_none]
  · intro e he
    have herr := answer_error _ e he
    rw [hok]
    simp [herr]
  · intro out hout
    rw [hok] at hout
    split at hout
    · cases hout
      exact List.prefix_refl _
    · exact continueLoop_sent_prefix c lib _ _ _ _ _ _ _ hout

/-- C9 amended, on an empty file identifier and the limit 0, with page P3 as
the first response, and on the file "id:ABC" and the limit -1, with a
transport error. -/
theorem inputs_pass_unvalidated_witness :
    (demoClient.initialRequest plainLib "" true 0).Body =
      some [("file", .str ""), ("include_inherited", .bool true), ("limit", .num 0)] ∧
    demoClient.ListFileMembers plainLib 0 [okResponse page3] "" true 0 =
      some { members := some { Users := page3.Users, Groups := page3.Groups,
                               Invitees := page3.Invitees }
             err := none
             sent := [demoClient.initialRequest plainLib "" true 0]
             state := (demoClient.do [okResponse page3]
               (demoClient.initialRequest plainLib "" true 0) {}).state } ∧
    demoClient.ListFileMembers plainLib 0 [.error { msg := "connection reset" }]
        "id:ABC" false (-1) =
      some { members := none, err := some { msg := "connection reset" }
             sent := [demoClient.initialRequest plainLib "id:ABC" false (-1)]
             state := (demoClient.do [.error { msg := "connection reset" }]
               (demoClient.initialRequest plainLib "id:ABC" false (-1)) {}).state } :=
  ⟨(inputs_pass_unvalidated demoClient plainLib [okResponse page3] "" true 0 0 rfl).1,
   (inputs_pass_unvalidated demoClient plainLib [okResponse page3] "" true 0 0 rfl).2.1
      page3 rfl rfl,
   (inputs_pass_unvalidated demoClient plainLib [.error { msg := "connection reset" }]
      "id:ABC" false (-1) 0 rfl).2.2.1 { msg := "connection reset" } rfl⟩

/-! ### Cursor presence -/

/-- C10: let the transport answer the initial request and the continuation
requests that follow with the pages `pre ++ [q]`, each carrying a cursor, `q`
carrying `cprev` (any string, the empty one included).  Then (1) a received
object whose cursor member is the empty string decodes into a page that
carries a cursor; (2) whenever `ListFileMembers` returns, the continuation
request with body `{cursor: cprev}` was issued right after the requests for
those pages; (3) if the response to that request is an object without a
cursor member, the loop ends there: the result is made of the pages so far
and that object decoded into a zero-valued page, and no further request is
issued, whatever `cprev` was. -/
theorem cursor_presence_by_absence {σ : Type} (c : Client σ) (lib : NetLib)
    (s s1 : σ) (fileID : String) (inc : Bool) (limit : Int)
    (pre : List ListFileMembersResponseBody) (q : ListFileMembersResponseBody) (cprev : String)
    (hi : c.InitialBuildable lib) (hb : c.ContinueBuildable lib)
    (hpre : ∀ p ∈ pre, p.Cursor ≠ none) (hq : q.Cursor = some cprev)
    (hans : c.Answers s (c.requests lib fileID inc limit (cursorsOf pre))
      ((pre ++ [q]).map .ok) s1) :
    (∀ (o : ResponseObject) (v : ListFileMembersResponseBody), o.cursor = .value "" →
      (Decode (.object o) v).1.Cursor = some "" ∧ (Decode (.object o) v).2 = none) ∧
    (c.continueRequest lib cprev).Body = some [("cursor", .str cprev)] ∧
    (∀ fuel out, c.ListFileMembers lib fuel s fileID inc limit = some out →
      (c.requests lib fileID inc limit (cursorsOf pre) ++ [c.continueRequest lib cprev])
        <+: out.sent) ∧
    (∀ status o s2,
      c.httpClient s1 (c.continueRequest lib cprev)
        = (.ok { StatusCode := status, Body := .object o }, s2) →
      o.cursor = .absent →
      ∀ fuel, pre.length + 1 ≤ fuel →
        c.ListFileMembers lib fuel s fileID inc limit =
          some { members := some (FileMembers.ofPages (pre ++ [q, (Decode (.object o) {}).1]))
                 err := none
                 sent := c.requests lib fileID inc limit (cursorsOf pre)
                   ++ [c.continueRequest lib cprev]
                 state := s2 }) := by
  have hans' := hans
  rw [List.map_append] at hans'
  refine ⟨?_, rfl, ?_, ?_⟩
  · intro o v ho
    simp [Decode, ho, Field.storePointer]
  · intro fuel out hout
    have h := listFileMembers_run c lib hi hb (.ok q) pre fuel s s1 fileID inc limit hpre hans'
    rw [listFileMembers_fuel_add c lib pre.length fuel s fileID inc limit out hout] at h
    simp only [hq] at h
    exact continueLoop_sent_next c lib hb _ _ _ _ _ _ _ h.symm
  · intro status o s2 hresp ho fuel hfuel
    have hfront : ∀ p ∈ pre ++ [q], p.Cursor ≠ none := by
      intro p hp
      rcases List.mem_append.mp hp with hp | hp
      · exact hpre p hp
      · rw [List.mem_singleton.mp hp, hq]; simp
    have hcs : cursorsOf (pre ++ [q]) = cursorsOf pre ++ [cprev] := by
      simp [cursorsOf, List.filterMap_append, hq]
    have hreqs : c.requests lib fileID inc limit (cursorsOf (pre ++ [q]))
        = c.requests lib fileID inc limit (cursorsOf pre) ++ [c.continueRequest lib cprev] := by
      rw [hcs]; simp [Client.requests]
    have hdo : c.do s1 (c.continueRequest lib cprev) {} =
        { resp := some { StatusCode := status, Body := .object o }
          err := none, v := (Decode (.object o) {}).1, state := s2 } := by
      simp [Client.do, hresp, Decode]
    have hlast : (Decode (.object o) {}).1.Cursor = none := by
      simp [Decode, ho, Field.storePointer]
    have hall := answers_snoc c (c.continueRequest lib cprev)
      (.ok (Decode (.object o) {}).1) s2 _ _ s s1 hans
      (by rw [hdo]; rfl) (by rw [hdo])
    rw [← hreqs] at hall
    have hall' : c.Answers s (c.requests lib fileID inc limit (cursorsOf (pre ++ [q])))
        ((pre ++ [q]).map .ok ++ [.ok (Decode (.object o) {}).1]) s2 := hall
    have hlen : (pre ++ [q]).length ≤ fuel := by simpa using hfuel
    have hrun := listFileMembers_run c lib hi hb (.ok (Decode (.object o) {}).1) (pre ++ [q])
      (fuel - (pre ++ [q]).length) s s2 fileID inc limit hfront hall'
    rw [Nat.sub_add_cancel hlen] at hrun
    rw [hrun]
    simp only [hlast, continueLoop_none, hreqs, List.append_assoc, List.singleton_append]

/-- C10, on a first page whose cursor is the empty string. -/
theorem cursor_presence_by_absence_witness :
    (demoClient.continueRequest plainLib "").Body = some [("cursor", .str "")] ∧
    demoClient.ListFileMembers plainLib 1
        [okResponse pageEmptyCursor, .ok { StatusCode := 200, Body := .object {} }]
        "id:ABC" true 1 =
      some { members := some (FileMembers.ofPages
               ([] ++ [pageEmptyCursor, (Decode (.object {}) {}).1]))
             err := none
             sent := demoClient.requests plainLib "id:ABC" true 1 (cursorsOf [])
               ++ [demoClient.continueRequest plainLib ""]
             state := [] } :=
  have h := cursor_presence_by_absence demoClient plainLib
    [okResponse pageEmptyCursor, .ok { StatusCode := 200, Body := .object {} }]
    [.ok { StatusCode := 200, Body := .object {} }] "id:ABC" true 1 [] pageEmptyCursor ""
    rfl rfl (by decide) rfl ⟨rfl, rfl⟩
  ⟨h.2.1, h.2.2.2 200 {} [] rfl rfl 1 (by decide)⟩

end Dropbox
